import Mathlib

/-!
Verification development for the skateboarding-game physics / trick-detection
core (rotation tracker, rail grind state machine, manual-balance minigame,
combo composer).

Modelling conventions:
* JavaScript numbers are embedded as exact rationals (`ℚ`); every rational is
  finite, so `isFinite` guards are trivially true and noted in comments.
* `Math.PI` is embedded as the rational literal `3.141592653589793`; none of
  the proofs depend on its exact value beyond coarse bounds such as
  `3 < PI < 3.2`.
* `Math.floor` / `Math.ceil` are `Int.floor` / `Int.ceil`; `Math.sign` is
  `mathSign` below.
* Stateful methods become functions `State → State × Bool` (the `Bool` is the
  JS return value); `null` numeric fields are represented by `0`, which
  matches JavaScript's arithmetic coercion of `null` and is only ever
  reachable behind `isActive` guards.
-/

namespace Shred

/-! ### Constants (from constants.js) -/

/-- Embedding of `Math.PI`. -/
def PI : ℚ := 3.141592653589793

/-- `TWO_PI = 2 * Math.PI`. -/
def TWO_PI : ℚ := 2 * PI

/-- `FORWARD_SPEED = 0.06`. -/
def FORWARD_SPEED : ℚ := 0.06

/-- `RAIL_GRIND_DISTANCE_THRESHOLD = 0.6`. -/
def RAIL_GRIND_DISTANCE_THRESHOLD : ℚ := 0.6

/-- `RAIL_GRIND_SPEED_MULTIPLIER = 1.5`. -/
def RAIL_GRIND_SPEED_MULTIPLIER : ℚ := 1.5

/-- `MIN_MOMENTUM_DOT_RAIL = 0.001`. -/
def MIN_MOMENTUM_DOT_RAIL : ℚ := 0.001

/-- `BOARD_HALF_HEIGHT = 0.07`. -/
def BOARD_HALF_HEIGHT : ℚ := 0.07

/-- `UPSIDE_DOWN_THRESHOLD = 0.5`. -/
def UPSIDE_DOWN_THRESHOLD : ℚ := 0.5

/-- `ANGLE_NORMALIZATION_MAX_ATTEMPTS = 10`. -/
def ANGLE_NORMALIZATION_MAX_ATTEMPTS : ℕ := 10

/-- `MIN_ROTATION_FOR_COUNT = 0.05`. -/
def MIN_ROTATION_FOR_COUNT : ℚ := 0.05

/-- `SHOW_TRICK_NAME_FEEDBACK = false`. -/
def SHOW_TRICK_NAME_FEEDBACK : Bool := false

/-- `MANUAL_MAX_DIP = 0.4`. -/
def MANUAL_MAX_DIP : ℚ := 0.4

/-- `MANUAL_MIN_DIP = -0.4`. -/
def MANUAL_MIN_DIP : ℚ := -0.4

/-- `MANUAL_DIP_THRESHOLD = 0.1`. -/
def MANUAL_DIP_THRESHOLD : ℚ := 0.1

/-- `MANUAL_DIP_SPEED = 0.0005`. -/
def MANUAL_DIP_SPEED : ℚ := 0.0005

/-- `MANUAL_DIP_SMOOTHING = 0.15`. -/
def MANUAL_DIP_SMOOTHING : ℚ := 0.15

/-- `MANUAL_BALANCE_LINEAR_SPEED = 0.01`. -/
def MANUAL_BALANCE_LINEAR_SPEED : ℚ := 0.01

/-- `MANUAL_BALANCE_FAILURE_THRESHOLD = 0.05`. -/
def MANUAL_BALANCE_FAILURE_THRESHOLD : ℚ := 0.05

/-- `MANUAL_RETURN_SPEED = 0.15`. -/
def MANUAL_RETURN_SPEED : ℚ := 0.15

/-- Axis labels used when instantiating trackers in the theorems below. -/
def axisZ : String := "z"

/-- Axis label for the camera/body-180 tracker instances below. -/
def axisCamera : String := "camera"

/-- Axis label for the shuv tracker instances below. -/
def axisY : String := "y"

/-- Axis label for the yaw tracker instances below. -/
def axisYaw : String := "yaw"

/-- Embedding of `Math.sign` (arguments are rationals, hence never NaN). -/
def mathSign (q : ℚ) : ℤ :=
  if 0 < q then 1 else if q < 0 then -1 else 0

/-- Embedding of `Math.abs` (kernel-computable, unlike Mathlib's lattice `abs`). -/
def mathAbs (q : ℚ) : ℚ := if q < 0 then -q else q

/-- Embedding of `Math.max` on two arguments. -/
def mathMax (a b : ℚ) : ℚ := if a < b then b else a

/-- Embedding of `Math.min` on two arguments. -/
def mathMin (a b : ℚ) : ℚ := if b < a then b else a

theorem mathAbs_eq_abs (q : ℚ) : mathAbs q = |q| := by
  unfold mathAbs
  split_ifs with h
  · rw [abs_of_neg h]
  · rw [abs_of_nonneg (not_lt.mp h)]

theorem mathMax_eq_max (a b : ℚ) : mathMax a b = max a b := by
  unfold mathMax
  split_ifs with h
  · exact (max_eq_right h.le).symm
  · exact (max_eq_left (not_lt.mp h)).symm

theorem mathMin_eq_min (a b : ℚ) : mathMin a b = min a b := by
  unfold mathMin
  split_ifs with h
  · exact (min_eq_right h.le).symm
  · exact (min_eq_left (not_lt.mp h)).symm

theorem mathAbs_zero : mathAbs 0 = 0 := rfl

/-! ### Angle math utilities (from math.js) -/

/-- Embeds the first loop of `normalizeAngle`:
`while (normalized < 0 && attempts < maxAttempts) normalized += 2π`. -/
def normalizeUpLoop : ℕ → ℚ → ℚ
  | 0, a => a
  | n + 1, a => if a < 0 then normalizeUpLoop n (a + TWO_PI) else a

/-- Embeds the second loop of `normalizeAngle`:
`while (normalized >= 2π && attempts < maxAttempts) normalized -= 2π`. -/
def normalizeDownLoop : ℕ → ℚ → ℚ
  | 0, a => a
  | n + 1, a => if TWO_PI ≤ a then normalizeDownLoop n (a - TWO_PI) else a

/-- Embedding of `normalizeAngle(angle, maxAttempts)`; the `isFinite` guard is
trivially true for rationals. -/
def normalizeAngle (angle : ℚ) (maxAttempts : ℕ) : ℚ :=
  normalizeDownLoop maxAttempts (normalizeUpLoop maxAttempts angle)

/-- Embeds `while (diff > Math.PI) diff -= 2π` (unbounded loop in the source,
which always terminates; here by well-founded recursion). -/
def reduceAbovePi (d : ℚ) : ℚ :=
  if h : PI < d then reduceAbovePi (d - TWO_PI) else d
termination_by (⌈(d - PI) / TWO_PI⌉).toNat
decreasing_by
  have htp : (0 : ℚ) < TWO_PI := by norm_num [TWO_PI, PI]
  have hpos : (0 : ℚ) < (d - PI) / TWO_PI := div_pos (by linarith) htp
  have h1 : 1 ≤ ⌈(d - PI) / TWO_PI⌉ := Int.ceil_pos.mpr hpos
  have h2 : (d - TWO_PI - PI) / TWO_PI = (d - PI) / TWO_PI - 1 := by
    field_simp
    ring
  rw [h2, Int.ceil_sub_one]
  omega

/-- Embeds `while (diff < -Math.PI) diff += 2π` (unbounded loop in the source,
which always terminates; here by well-founded recursion). -/
def raiseBelowNegPi (d : ℚ) : ℚ :=
  if h : d < -PI then raiseBelowNegPi (d + TWO_PI) else d
termination_by (⌈(-PI - d) / TWO_PI⌉).toNat
decreasing_by
  have htp : (0 : ℚ) < TWO_PI := by norm_num [TWO_PI, PI]
  have hpos : (0 : ℚ) < (-PI - d) / TWO_PI := div_pos (by linarith) htp
  have h1 : 1 ≤ ⌈(-PI - d) / TWO_PI⌉ := Int.ceil_pos.mpr hpos
  have h2 : (-PI - (d + TWO_PI)) / TWO_PI = (-PI - d) / TWO_PI - 1 := by
    field_simp
    ring
  rw [h2, Int.ceil_sub_one]
  omega

/-- Embedding of `shortestAngleDiff(current, target)`. -/
def shortestAngleDiff (current target : ℚ) : ℚ :=
  let normalizedCurrent := normalizeAngle current ANGLE_NORMALIZATION_MAX_ATTEMPTS
  let normalizedTarget := normalizeAngle target ANGLE_NORMALIZATION_MAX_ATTEMPTS
  raiseBelowNegPi (reduceAbovePi (normalizedTarget - normalizedCurrent))

/-! ### Rotation tracker (from rotationTracker.js)

The debug-only `history` array and `console.warn` calls are omitted. -/

structure RotationTracker where
  axis : String
  threshold : ℚ
  startRotation : ℚ
  previousRotation : ℚ
  cumulativeRotation : ℚ
  completedRotations : ℤ
  direction : ℤ
  isActive : Bool
  rotationVelocity : ℚ
  previousDelta : ℚ
  deriving Repr, DecidableEq

namespace RotationTracker

/-- Embedding of the constructor `new RotationTracker(axis, threshold)`
(`null` fields represented by `0`). -/
def mk' (axis : String) (threshold : ℚ) : RotationTracker :=
  { axis := axis
    threshold := threshold
    startRotation := 0
    previousRotation := 0
    cumulativeRotation := 0
    completedRotations := 0
    direction := 0
    isActive := false
    rotationVelocity := 0
    previousDelta := 0 }

/-- Embedding of `_getCompletedCount(cumulative)`. -/
def getCompletedCount (threshold cumulative : ℚ) : ℤ :=
  let epsilon : ℚ := 0.01
  if mathAbs cumulative < epsilon then 0
  else if 0 < cumulative then ⌊(cumulative + epsilon) / threshold⌋
  else ⌈(cumulative - epsilon) / threshold⌉

/-- Embedding of `start(currentRotation)`; the `isFinite` guard is trivially
true for rationals. -/
def start (t : RotationTracker) (currentRotation : ℚ) : RotationTracker :=
  let n := normalizeAngle currentRotation ANGLE_NORMALIZATION_MAX_ATTEMPTS
  { t with
    startRotation := n
    previousRotation := n
    cumulativeRotation := 0
    completedRotations := 0
    direction := 0
    rotationVelocity := 0
    previousDelta := 0
    isActive := true }

/-- Embedding of the delta computation inside `update()`: shortest-path delta
plus the wrap-around replacement block (`boundaryThreshold = PI * 0.7`). -/
def computeDelta (previousRotation previousDelta : ℚ) (direction : ℤ)
    (normalizedCurrent : ℚ) : ℚ :=
  let delta := shortestAngleDiff previousRotation normalizedCurrent
  let avgVelocity := (delta + previousDelta) / 2
  let boundaryThreshold := PI * 0.7
  if PI + boundaryThreshold < previousRotation ∧
      normalizedCurrent < PI - boundaryThreshold then
    if 0 < avgVelocity ∨ 0 < direction then
      TWO_PI - previousRotation + normalizedCurrent
    else delta
  else if previousRotation < PI - boundaryThreshold ∧
      PI + boundaryThreshold < normalizedCurrent then
    if avgVelocity < 0 ∨ direction < 0 then
      -(previousRotation + (TWO_PI - normalizedCurrent))
    else delta
  else delta

/-- Embedding of `update(currentRotation)`; returns the updated tracker and
the JS boolean return value. The `isFinite` guard is trivially true for
rationals. -/
def update (t : RotationTracker) (currentRotation : ℚ) :
    RotationTracker × Bool :=
  if !t.isActive then (t, false) else
  let normalizedCurrent := normalizeAngle currentRotation ANGLE_NORMALIZATION_MAX_ATTEMPTS
  let delta0 := shortestAngleDiff t.previousRotation normalizedCurrent
  let delta := computeDelta t.previousRotation t.previousDelta t.direction normalizedCurrent
  let t1 := { t with rotationVelocity := delta0 }
  if mathAbs delta < MIN_ROTATION_FOR_COUNT ∧
      mathAbs t1.cumulativeRotation < MIN_ROTATION_FOR_COUNT ∧ t1.direction = 0 then
    ({ t1 with previousDelta := delta }, false)
  else
    let oldCumulative := t1.cumulativeRotation
    let newCumulative := oldCumulative + delta
    let oldCompleted := getCompletedCount t1.threshold oldCumulative
    let newCompleted := getCompletedCount t1.threshold newCumulative
    let newDirection := if 0.001 < mathAbs delta then mathSign delta else t1.direction
    if newCompleted ≠ oldCompleted then
      ({ t1 with
          previousDelta := delta
          cumulativeRotation := newCumulative
          completedRotations := newCompleted
          direction := newDirection
          previousRotation := normalizedCurrent }, true)
    else
      ({ t1 with
          previousDelta := delta
          cumulativeRotation := newCumulative
          direction := newDirection
          previousRotation := normalizedCurrent }, false)

/-- Embedding of `applySnap(snapRotation)`; the `isFinite` guard is trivially
true for rationals. -/
def applySnap (t : RotationTracker) (snapRotation : ℚ) :
    RotationTracker × Bool :=
  if !t.isActive then (t, false) else
  let oldCumulative := t.cumulativeRotation
  let newCumulative := oldCumulative + snapRotation
  let oldCompleted := getCompletedCount t.threshold oldCumulative
  let newCompleted := getCompletedCount t.threshold newCumulative
  let newPreviousRotation :=
    normalizeAngle (t.previousRotation + snapRotation) ANGLE_NORMALIZATION_MAX_ATTEMPTS
  let newDirection := if 0.001 < mathAbs snapRotation then mathSign snapRotation else t.direction
  if newCompleted ≠ oldCompleted then
    ({ t with
        cumulativeRotation := newCumulative
        previousRotation := newPreviousRotation
        completedRotations := newCompleted
        direction := newDirection }, true)
  else
    ({ t with
        cumulativeRotation := newCumulative
        previousRotation := newPreviousRotation
        direction := newDirection }, false)

/-- Embedding of `getCount()`. -/
def getCount (t : RotationTracker) : ℤ := t.completedRotations

/-- Embedding of `getCumulativeRotation()`. -/
def getCumulativeRotation (t : RotationTracker) : ℚ := t.cumulativeRotation

/-- Embedding of `reset()` (`null` fields represented by `0`). -/
def reset (t : RotationTracker) : RotationTracker :=
  { t with
    startRotation := 0
    previousRotation := 0
    cumulativeRotation := 0
    completedRotations := 0
    direction := 0
    rotationVelocity := 0
    previousDelta := 0
    isActive := false }

end RotationTracker

/-- Feeds the samples `ψ 1, ψ 2, …` to `update()` in order (`ψ 0` is the
sample handed to `start()`), keeping the tracker states and discarding the
returned booleans. -/
def runUpdates (ψ : ℕ → ℚ) (t : RotationTracker) : ℕ → RotationTracker
  | 0 => t
  | k + 1 => ((runUpdates ψ t k).update (ψ (k + 1))).1

/-- Invariant for a monotone forward run over the unwrapped path `φ` with
normalized samples `ψ`: either the tracker is still in the noise-filter phase
(no sample accepted yet, `previousRotation` stuck at the start sample and the
pending gap below the filter threshold) or it is locked forward with the
exactly accumulated gap. -/
def forwardInv (T : ℚ) (ψ φ : ℕ → ℚ) (k : ℕ) (t : RotationTracker) : Prop :=
  t.isActive = true ∧ t.threshold = T ∧
  ((t.direction = 0 ∧ t.cumulativeRotation = 0 ∧ t.completedRotations = 0 ∧
      t.previousRotation = ψ 0 ∧ 0 ≤ φ k - φ 0 ∧
      φ k - φ 0 < MIN_ROTATION_FOR_COUNT) ∨
    (t.direction = 1 ∧ t.cumulativeRotation = φ k - φ 0 ∧
      t.completedRotations = RotationTracker.getCompletedCount T (φ k - φ 0) ∧
      t.previousRotation = ψ k))

/-- Mirror of `forwardInv` for a monotone backward run. -/
def backwardInv (T : ℚ) (ψ φ : ℕ → ℚ) (k : ℕ) (t : RotationTracker) : Prop :=
  t.isActive = true ∧ t.threshold = T ∧
  ((t.direction = 0 ∧ t.cumulativeRotation = 0 ∧ t.completedRotations = 0 ∧
      t.previousRotation = ψ 0 ∧ 0 ≤ φ 0 - φ k ∧
      φ 0 - φ k < MIN_ROTATION_FOR_COUNT) ∨
    (t.direction = -1 ∧ t.cumulativeRotation = φ k - φ 0 ∧
      t.completedRotations = RotationTracker.getCompletedCount T (φ k - φ 0) ∧
      t.previousRotation = ψ k))

/-- Concrete unwrapped path for the C2 witness: one full rotation of
threshold `1` in two forward steps of `0.5` rad starting at phase `6`. -/
def c2Phi (k : ℕ) : ℚ := 6 + (k : ℚ) / 2

/-- The normalized samples of `c2Phi`: the path crosses the `0/2π` seam
between the first and second sample. -/
def c2Psi (k : ℕ) : ℚ := c2Phi k - TWO_PI * (if k = 0 then 0 else 1)

/-! ### Operation sequences on a rotation tracker -/

/-- Mutating calls a client can make on a live `RotationTracker`. -/
inductive TrackerOp where
  | start (angle : ℚ)
  | update (angle : ℚ)
  | applySnap (delta : ℚ)
  deriving Repr

/-- Applies one tracker call, discarding the JS boolean return value. -/
def applyOp (t : RotationTracker) : TrackerOp → RotationTracker
  | .start a => t.start a
  | .update a => (t.update a).1
  | .applySnap d => (t.applySnap d).1

/-- Applies a finite sequence of tracker calls in order. -/
def applyOps (t : RotationTracker) : List TrackerOp → RotationTracker
  | [] => t
  | op :: ops => applyOps (applyOp t op) ops

/-- The incremental count agrees with a full recompute from the cumulative
rotation. -/
def countInv (t : RotationTracker) : Prop :=
  t.completedRotations = RotationTracker.getCompletedCount t.threshold t.cumulativeRotation

theorem getCompletedCount_zero (T : ℚ) : RotationTracker.getCompletedCount T 0 = 0 := by
  norm_num [RotationTracker.getCompletedCount, mathAbs_zero]

theorem countInv_mk (axis : String) (T : ℚ) : countInv (RotationTracker.mk' axis T) := by
  simp [countInv, RotationTracker.mk', getCompletedCount_zero]

theorem countInv_start (t : RotationTracker) (a : ℚ) : countInv (t.start a) := by
  simp [countInv, RotationTracker.start, getCompletedCount_zero]

theorem countInv_update (t : RotationTracker) (a : ℚ) (h : countInv t) :
    countInv (t.update a).1 := by
  unfold countInv RotationTracker.update
  dsimp only
  split_ifs with h1 h2 h3 h4 h5
  · exact h
  · exact h
  · rfl
  · rfl
  · rw [not_ne_iff] at h3
    simpa [h3] using h
  · rw [not_ne_iff] at h3
    simpa [h3] using h

theorem countInv_applySnap (t : RotationTracker) (d : ℚ) (h : countInv t) :
    countInv (t.applySnap d).1 := by
  unfold countInv RotationTracker.applySnap
  dsimp only
  split_ifs with h1 h2 h3 h4
  · exact h
  · rfl
  · rfl
  · rw [not_ne_iff] at h2
    simpa [h2] using h
  · rw [not_ne_iff] at h2
    simpa [h2] using h

theorem countInv_applyOp (t : RotationTracker) (op : TrackerOp) (h : countInv t) :
    countInv (applyOp t op) := by
  cases op with
  | start a => exact countInv_start t a
  | update a => exact countInv_update t a h
  | applySnap d => exact countInv_applySnap t d h

theorem countInv_applyOps (ops : List TrackerOp) :
    ∀ t : RotationTracker, countInv t → countInv (applyOps t ops) := by
  induction ops with
  | nil => intro t h; exact h
  | cons op ops ih => intro t h; exact ih _ (countInv_applyOp t op h)

theorem threshold_applyOp (t : RotationTracker) (op : TrackerOp) :
    (applyOp t op).threshold = t.threshold := by
  cases op with
  | start a => rfl
  | update a =>
    simp only [applyOp]
    unfold RotationTracker.update
    dsimp only
    split_ifs <;> rfl
  | applySnap d =>
    simp only [applyOp]
    unfold RotationTracker.applySnap
    dsimp only
    split_ifs <;> rfl

theorem threshold_applyOps (ops : List TrackerOp) :
    ∀ t : RotationTracker, (applyOps t ops).threshold = t.threshold := by
  induction ops with
  | nil => intro t; rfl
  | cons op ops ih => intro t; rw [applyOps, ih, threshold_applyOp]

/-- C1: for every `RotationTracker` (any threshold `T > 0`) and after any
finite sequence of `start()`, `update()` and `applySnap()` calls,
`completedRotations` equals the sign-aware floor/ceil recompute of
`cumulativeRotation` over the threshold exactly as `_getCompletedCount`
defines it; the incrementally maintained count never drifts from the full
recompute. -/
theorem claim_C1_completed_count_never_drifts (T : ℚ) (hT : 0 < T)
    (ops : List TrackerOp) :
    (applyOps (RotationTracker.mk' axisZ T) ops).completedRotations
      = RotationTracker.getCompletedCount T
          (applyOps (RotationTracker.mk' axisZ T) ops).cumulativeRotation := by
  have h := countInv_applyOps ops (RotationTracker.mk' axisZ T) (countInv_mk axisZ T)
  unfold countInv at h
  rwa [threshold_applyOps ops (RotationTracker.mk' axisZ T)] at h

/-- Witness for C1 at threshold `1` and a concrete call sequence. -/
theorem claim_C1_witness :
    (0 : ℚ) < 1 ∧
      (applyOps (RotationTracker.mk' axisZ 1)
          [.start 2, .update 3, .applySnap 4]).completedRotations
        = RotationTracker.getCompletedCount 1
            (applyOps (RotationTracker.mk' axisZ 1)
                [.start 2, .update 3, .applySnap 4]).cumulativeRotation :=
  ⟨by norm_num,
   claim_C1_completed_count_never_drifts 1 (by norm_num)
     [.start 2, .update 3, .applySnap 4]⟩

/-! ### C3: applySnap followed by update does not double-count -/

theorem reduceAbovePi_of_le (d : ℚ) (h : d ≤ PI) : reduceAbovePi d = d := by
  rw [reduceAbovePi]
  simp [not_lt.mpr h]

theorem raiseBelowNegPi_of_ge (d : ℚ) (h : -PI ≤ d) : raiseBelowNegPi d = d := by
  rw [raiseBelowNegPi]
  simp [not_lt.mpr h]

theorem shortestAngleDiff_self (a : ℚ) : shortestAngleDiff a a = 0 := by
  unfold shortestAngleDiff
  dsimp only
  rw [sub_self, reduceAbovePi_of_le 0 (by norm_num [PI]),
    raiseBelowNegPi_of_ge 0 (by norm_num [PI])]

theorem computeDelta_self (p pd : ℚ) (dir : ℤ) :
    RotationTracker.computeDelta p pd dir p = 0 := by
  have hpi : (0 : ℚ) < PI := by norm_num [PI]
  unfold RotationTracker.computeDelta
  rw [shortestAngleDiff_self]
  dsimp only
  split_ifs with g1 g2 g3 g4
  · exfalso; linarith [g1.1, g1.2]
  · rfl
  · exfalso; linarith [g3.1, g3.2]
  · rfl
  · rfl

theorem applySnap_cumulative (t : RotationTracker) (d : ℚ) (h : t.isActive = true) :
    (t.applySnap d).1.cumulativeRotation = t.cumulativeRotation + d := by
  unfold RotationTracker.applySnap
  dsimp only
  simp only [h, Bool.not_true, Bool.false_eq_true, if_false]
  split_ifs <;> rfl

theorem applySnap_previousRotation (t : RotationTracker) (d : ℚ)
    (h : t.isActive = true) :
    (t.applySnap d).1.previousRotation
      = normalizeAngle (t.previousRotation + d) ANGLE_NORMALIZATION_MAX_ATTEMPTS := by
  unfold RotationTracker.applySnap
  dsimp only
  simp only [h, Bool.not_true, Bool.false_eq_true, if_false]
  split_ifs <;> rfl

theorem applySnap_isActive (t : RotationTracker) (d : ℚ) (h : t.isActive = true) :
    (t.applySnap d).1.isActive = true := by
  unfold RotationTracker.applySnap
  dsimp only
  simp only [h, Bool.not_true, Bool.false_eq_true, if_false]
  split_ifs <;> rfl

/-- Feeding `update()` a sample that normalizes to the tracker's current
`previousRotation` contributes exactly zero additional cumulative rotation
and leaves the completed count unchanged. -/
theorem update_zero_delta (t : RotationTracker) (input : ℚ)
    (h : t.isActive = true)
    (hin : t.previousRotation = normalizeAngle input ANGLE_NORMALIZATION_MAX_ATTEMPTS) :
    (t.update input).1.cumulativeRotation = t.cumulativeRotation ∧
      (t.update input).1.completedRotations = t.completedRotations := by
  unfold RotationTracker.update
  dsimp only
  rw [← hin, computeDelta_self, shortestAngleDiff_self]
  simp only [h, Bool.not_true, add_zero, abs_zero, ne_eq, not_true_eq_false,
    if_false, Bool.false_eq_true]
  split_ifs with h1 h2 h3 <;> simp_all

/-- C3: on an active tracker, `applySnap(delta)` adds `delta` to
`cumulativeRotation` exactly once and folds `delta` into `previousRotation`,
so a subsequent `update()` with the post-snap angle (pre-snap previous sample
plus `delta`) contributes zero additional cumulative rotation and leaves the
completed count unchanged: the snap is never counted twice. -/
theorem claim_C3_snap_not_double_counted (t : RotationTracker) (d : ℚ)
    (h : t.isActive = true) :
    ((t.applySnap d).1.cumulativeRotation = t.cumulativeRotation + d) ∧
      ((t.applySnap d).1.previousRotation
        = normalizeAngle (t.previousRotation + d) ANGLE_NORMALIZATION_MAX_ATTEMPTS) ∧
      (((t.applySnap d).1.update (t.previousRotation + d)).1.cumulativeRotation
        = (t.applySnap d).1.cumulativeRotation) ∧
      (((t.applySnap d).1.update (t.previousRotation + d)).1.completedRotations
        = (t.applySnap d).1.completedRotations) := by
  have hupd := update_zero_delta (t.applySnap d).1 (t.previousRotation + d)
    (applySnap_isActive t d h) (applySnap_previousRotation t d h)
  exact ⟨applySnap_cumulative t d h, applySnap_previousRotation t d h,
    hupd.1, hupd.2⟩

/-- Witness for C3 on a started flip tracker with a snap of `2`. -/
theorem claim_C3_witness :
    ((RotationTracker.mk' axisZ TWO_PI).start 1).isActive = true ∧
      ((((RotationTracker.mk' axisZ TWO_PI).start 1).applySnap 2).1.cumulativeRotation
          = ((RotationTracker.mk' axisZ TWO_PI).start 1).cumulativeRotation + 2) ∧
        ((((RotationTracker.mk' axisZ TWO_PI).start 1).applySnap 2).1.previousRotation
          = normalizeAngle (((RotationTracker.mk' axisZ TWO_PI).start 1).previousRotation + 2)
              ANGLE_NORMALIZATION_MAX_ATTEMPTS) ∧
        (((((RotationTracker.mk' axisZ TWO_PI).start 1).applySnap 2).1.update
              (((RotationTracker.mk' axisZ TWO_PI).start 1).previousRotation + 2)).1.cumulativeRotation
          = (((RotationTracker.mk' axisZ TWO_PI).start 1).applySnap 2).1.cumulativeRotation) ∧
        (((((RotationTracker.mk' axisZ TWO_PI).start 1).applySnap 2).1.update
              (((RotationTracker.mk' axisZ TWO_PI).start 1).previousRotation + 2)).1.completedRotations
          = (((RotationTracker.mk' axisZ TWO_PI).start 1).applySnap 2).1.completedRotations) :=
  ⟨rfl, claim_C3_snap_not_double_counted ((RotationTracker.mk' axisZ TWO_PI).start 1) 2 rfl⟩

/-! ### C4: wrap-around detection replaces the naive delta -/

/-- C4: in `update()`, when the previous normalized sample lies in the top
wrap region (`previousRotation > PI + 0.7·PI`, i.e. within `0.3·PI` of the
top of `[0, 2π)`) and the current normalized sample lies in the bottom region
(`< PI − 0.7·PI`), and the recent rotation velocity sign (average of this and
the previous delta, or the stored direction) is consistent with a forward
wrap, the naive shortest-path delta is replaced by the unwrapped delta
`2π − previous + current`; symmetrically for the backward case with
`−(previous + (2π − current))`. -/
theorem claim_C4_wrap_replacement (prev pd cur : ℚ) (dir : ℤ) :
    (PI + PI * 0.7 < prev → cur < PI - PI * 0.7 →
      (0 < (shortestAngleDiff prev cur + pd) / 2 ∨ 0 < dir) →
      RotationTracker.computeDelta prev pd dir cur = TWO_PI - prev + cur) ∧
      (prev < PI - PI * 0.7 → PI + PI * 0.7 < cur →
        ((shortestAngleDiff prev cur + pd) / 2 < 0 ∨ dir < 0) →
        RotationTracker.computeDelta prev pd dir cur
          = -(prev + (TWO_PI - cur))) := by
  have hpi : (0 : ℚ) < PI := by norm_num [PI]
  constructor
  · intro h1 h2 hv
    unfold RotationTracker.computeDelta
    dsimp only
    rw [if_pos ⟨h1, h2⟩, if_pos hv]
  · intro h1 h2 hv
    unfold RotationTracker.computeDelta
    dsimp only
    rw [if_neg (by rintro ⟨ha, hb⟩; linarith), if_pos ⟨h1, h2⟩, if_pos hv]

/-- Witness for C4 at `prev = 6`, `cur = 0.5` (forward) and the mirrored
backward pair, with the direction disjunct discharging the velocity guard. -/
theorem claim_C4_witness :
    (PI + PI * 0.7 < 6 ∧ (0.5 : ℚ) < PI - PI * 0.7 ∧ (0 : ℤ) < 1 ∧ (-1 : ℤ) < 0) ∧
      RotationTracker.computeDelta 6 0 1 0.5 = TWO_PI - 6 + 0.5 ∧
      RotationTracker.computeDelta 0.5 0 (-1) 6 = -(0.5 + (TWO_PI - 6)) :=
  ⟨by norm_num [PI],
   (claim_C4_wrap_replacement 6 0 0.5 1).1 (by norm_num [PI]) (by norm_num [PI])
     (Or.inr (by norm_num)),
   (claim_C4_wrap_replacement 0.5 0 6 (-1)).2 (by norm_num [PI]) (by norm_num [PI])
     (Or.inr (by norm_num))⟩

/-- C10: calling `update()` or `applySnap()` on an inactive tracker returns
`false` and leaves every tracker field unchanged. -/
theorem claim_C10_inactive_calls_are_noops (t : RotationTracker) (a d : ℚ)
    (h : t.isActive = false) :
    t.update a = (t, false) ∧ t.applySnap d = (t, false) := by
  constructor
  · unfold RotationTracker.update
    simp [h]
  · unfold RotationTracker.applySnap
    simp [h]

/-- Witness for C10 on a freshly constructed (never started) tracker. -/
theorem claim_C10_witness :
    (RotationTracker.mk' axisZ TWO_PI).isActive = false ∧
      ((RotationTracker.mk' axisZ TWO_PI).update 1
          = (RotationTracker.mk' axisZ TWO_PI, false) ∧
        (RotationTracker.mk' axisZ TWO_PI).applySnap 2
          = (RotationTracker.mk' axisZ TWO_PI, false)) :=
  ⟨rfl, claim_C10_inactive_calls_are_noops (RotationTracker.mk' axisZ TWO_PI) 1 2 rfl⟩

/-! ### C5: grind speed while grinding (from handleGrinding in physics.js) -/

/-- Embedding of the grind-speed block of `handleGrinding()`: project momentum
onto the rail direction, update `railGrindDirection` when the dot product is
significant, and force velocity along the rail at
`max(|momentum·railDir|, FORWARD_SPEED * RAIL_GRIND_SPEED_MULTIPLIER)`.
`railDirX`/`railDirZ` are `Math.sin(RAIL_ANGLE)`/`Math.cos(RAIL_ANGLE)`
(irrational for `RAIL_ANGLE = π/4`), so they are taken as parameters; the
theorems only assume they form a unit vector. Returns
`(velocity.x, velocity.z, railGrindDirection)` after the block. -/
def grindVelocityUpdate (railDirX railDirZ vx vz : ℚ) (railGrindDirection : ℤ) :
    ℚ × ℚ × ℤ :=
  let momentumDotRail := vx * railDirX + vz * railDirZ
  let newDirection :=
    if MIN_MOMENTUM_DOT_RAIL < mathAbs momentumDotRail then
      (if 0 < momentumDotRail then 1 else -1)
    else railGrindDirection
  let grindSpeed := mathMax (mathAbs momentumDotRail)
    (FORWARD_SPEED * RAIL_GRIND_SPEED_MULTIPLIER)
  (railDirX * grindSpeed * newDirection, railDirZ * grindSpeed * newDirection,
    newDirection)

theorem grindVelocityUpdate_dot (railDirX railDirZ vx vz : ℚ) (dir : ℤ)
    (hunit : railDirX ^ 2 + railDirZ ^ 2 = 1) :
    (grindVelocityUpdate railDirX railDirZ vx vz dir).1 * railDirX
      + (grindVelocityUpdate railDirX railDirZ vx vz dir).2.1 * railDirZ
    = mathMax (mathAbs (vx * railDirX + vz * railDirZ))
        (FORWARD_SPEED * RAIL_GRIND_SPEED_MULTIPLIER)
      * ((grindVelocityUpdate railDirX railDirZ vx vz dir).2.2 : ℚ) := by
  unfold grindVelocityUpdate
  dsimp only
  set M := mathMax (mathAbs (vx * railDirX + vz * railDirZ))
    (FORWARD_SPEED * RAIL_GRIND_SPEED_MULTIPLIER) with hM
  have key : ∀ nd : ℚ,
      railDirX * M * nd * railDirX + railDirZ * M * nd * railDirZ = M * nd := by
    intro nd
    linear_combination (M * nd) * hunit
  exact key _

theorem grindVelocityUpdate_direction_of_half_forward (railDirX railDirZ vx vz : ℚ)
    (dir : ℤ) (hmdr : vx * railDirX + vz * railDirZ = 0.5 * FORWARD_SPEED) :
    (grindVelocityUpdate railDirX railDirZ vx vz dir).2.2 = 1 := by
  unfold grindVelocityUpdate
  dsimp only
  rw [hmdr]
  norm_num [mathAbs, MIN_MOMENTUM_DOT_RAIL, FORWARD_SPEED]

/-- C5 counterexample: with a unit rail direction `(3/5, 4/5)`,
`railGrindDirection = 1` and momentum whose rail dot product is
`0.5 · FORWARD_SPEED`, the resolved grind speed along the rail axis is *not*
`1.2 · FORWARD_SPEED` as the claim states (the code's multiplier is `1.5`). -/
theorem claim_C5_counterexample :
    ¬((grindVelocityUpdate (3/5) (4/5) 0.018 0.024 1).1 * (3/5)
        + (grindVelocityUpdate (3/5) (4/5) 0.018 0.024 1).2.1 * (4/5)
      = 1.2 * FORWARD_SPEED) := by
  norm_num [grindVelocityUpdate, mathAbs, mathMax, MIN_MOMENTUM_DOT_RAIL,
    FORWARD_SPEED, RAIL_GRIND_SPEED_MULTIPLIER]

/-- C5 (amended): while grinding, each tick forces the horizontal velocity
along the rail direction at speed
`max(|momentum·railDir|, FORWARD_SPEED · RAIL_GRIND_SPEED_MULTIPLIER)`
(signed by the updated grind direction); in particular, with
`railGrindDirection = 1` and momentum dot rail equal to `0.5 · FORWARD_SPEED`,
the resolved grind speed along the rail axis equals
`RAIL_GRIND_SPEED_MULTIPLIER · FORWARD_SPEED = 1.5 · FORWARD_SPEED`. -/
theorem claim_C5_amended_grind_speed (railDirX railDirZ vx vz : ℚ) (dir : ℤ)
    (hunit : railDirX ^ 2 + railDirZ ^ 2 = 1) :
    ((grindVelocityUpdate railDirX railDirZ vx vz dir).1 * railDirX
        + (grindVelocityUpdate railDirX railDirZ vx vz dir).2.1 * railDirZ
      = mathMax (mathAbs (vx * railDirX + vz * railDirZ))
          (FORWARD_SPEED * RAIL_GRIND_SPEED_MULTIPLIER)
        * ((grindVelocityUpdate railDirX railDirZ vx vz dir).2.2 : ℚ)) ∧
      (vx * railDirX + vz * railDirZ = 0.5 * FORWARD_SPEED →
        (grindVelocityUpdate railDirX railDirZ vx vz dir).1 * railDirX
          + (grindVelocityUpdate railDirX railDirZ vx vz dir).2.1 * railDirZ
        = RAIL_GRIND_SPEED_MULTIPLIER * FORWARD_SPEED) := by
  refine ⟨grindVelocityUpdate_dot railDirX railDirZ vx vz dir hunit, ?_⟩
  intro hmdr
  rw [grindVelocityUpdate_dot railDirX railDirZ vx vz dir hunit,
    grindVelocityUpdate_direction_of_half_forward railDirX railDirZ vx vz dir hmdr,
    hmdr]
  norm_num [mathMax, mathAbs, FORWARD_SPEED, RAIL_GRIND_SPEED_MULTIPLIER]

/-- Witness for C5 (amended) at the unit rail direction `(3/5, 4/5)` with
momentum `(0.018, 0.024)` (rail dot product `0.03 = 0.5 · FORWARD_SPEED`). -/
theorem claim_C5_witness :
    ((3/5 : ℚ) ^ 2 + (4/5 : ℚ) ^ 2 = 1 ∧
        (0.018 : ℚ) * (3/5) + 0.024 * (4/5) = 0.5 * FORWARD_SPEED) ∧
      (grindVelocityUpdate (3/5) (4/5) 0.018 0.024 1).1 * (3/5)
          + (grindVelocityUpdate (3/5) (4/5) 0.018 0.024 1).2.1 * (4/5)
        = RAIL_GRIND_SPEED_MULTIPLIER * FORWARD_SPEED :=
  ⟨⟨by norm_num, by norm_num [FORWARD_SPEED]⟩,
   (claim_C5_amended_grind_speed (3/5) (4/5) 0.018 0.024 1 (by norm_num)).2
     (by norm_num [FORWARD_SPEED])⟩

/-! ### C7: grind entry distance gating (startGrinding in physics.js) -/

structure Vec3 where
  x : ℚ
  y : ℚ
  z : ℚ
  deriving Repr, DecidableEq

/-- Axis-aligned bounding box (THREE.Box3). -/
structure Box3 where
  lo : Vec3
  hi : Vec3
  deriving Repr, DecidableEq

/-- Clamp of the board position to the rail bounding box, from
`getDistanceToRail`: `closest.x = Math.max(box.min.x, Math.min(pos.x, box.max.x))`
and likewise for `y`, `z`. -/
def clampPointToBox (box : Box3) (p : Vec3) : Vec3 :=
  ⟨mathMax box.lo.x (mathMin p.x box.hi.x),
   mathMax box.lo.y (mathMin p.y box.hi.y),
   mathMax box.lo.z (mathMin p.z box.hi.z)⟩

/-- Squared form of `getDistanceToRail`: the source returns
`boardPos.distanceTo(closestPoint)` (a square root, irrational over ℚ), and
every use compares it against a nonnegative threshold, so the embedding works
with the squared distance and squared thresholds throughout. -/
def getDistanceToRailSq (railBox : Box3) (p : Vec3) : ℚ :=
  let c := clampPointToBox railBox p
  (p.x - c.x) ^ 2 + (p.y - c.y) ^ 2 + (p.z - c.z) ^ 2

theorem normalizeUpLoop_of_nonneg (n : ℕ) (a : ℚ) (h : 0 ≤ a) :
    normalizeUpLoop n a = a := by
  cases n with
  | zero => rfl
  | succ n => simp [normalizeUpLoop, not_lt.mpr h]

theorem normalizeDownLoop_of_lt (n : ℕ) (a : ℚ) (h : a < TWO_PI) :
    normalizeDownLoop n a = a := by
  cases n with
  | zero => rfl
  | succ n => simp [normalizeDownLoop, not_le.mpr h]

/-- Angles already in `[0, 2π)` pass through `normalizeAngle` unchanged. -/
theorem normalizeAngle_of_mem (a : ℚ) (n : ℕ) (h0 : 0 ≤ a) (h2 : a < TWO_PI) :
    normalizeAngle a n = a := by
  unfold normalizeAngle
  rw [normalizeUpLoop_of_nonneg n a h0, normalizeDownLoop_of_lt n a h2]

/-- Embedding of `checkUpsideDown(rotationZ)`: returns
`(normalized, isUpsideDown)`. -/
def checkUpsideDown (rotationZ : ℚ) : ℚ × Bool :=
  let normalized := normalizeAngle rotationZ ANGLE_NORMALIZATION_MAX_ATTEMPTS
  let d0 := mathAbs (normalized - PI)
  let distanceToPi := if PI < d0 then TWO_PI - d0 else d0
  (normalized, distanceToPi < UPSIDE_DOWN_THRESHOLD)

/-- State read and written by `startGrinding()`. Sound, screen shake and the
combo update (`addGrindToCombo`, modeled separately for C6) are external side
effects without physics-state footprint. -/
structure GrindEntryState where
  railMeshExists : Bool
  boardMeshExists : Bool
  railBox : Box3
  railPos : Vec3
  boardPos : Vec3
  velocityX : ℚ
  velocityZ : ℚ
  boardTargetRotationZ : ℚ
  isOnFloor : Bool
  isLeftMouseHeld : Bool
  isRightMouseHeld : Bool
  keyA : Bool
  keyD : Bool
  isGrinding : Bool
  railGrindDirection : ℤ
  deriving Repr, DecidableEq

/-- Embedding of `startGrinding()`. `railDirX`/`railDirZ` stand for
`Math.sin(RAIL_ANGLE)`/`Math.cos(RAIL_ANGLE)` (irrational, so parameters).
The distance guard `distance > RAIL_GRIND_DISTANCE_THRESHOLD` is encoded on
squared distances. Returns the new state and the JS boolean return value. -/
def startGrinding (railDirX railDirZ : ℚ) (s : GrindEntryState) :
    GrindEntryState × Bool :=
  if !s.railMeshExists || !s.boardMeshExists then (s, false)
  else if s.isOnFloor then (s, false)
  else if !s.isLeftMouseHeld then (s, false)
  else if s.isRightMouseHeld then (s, false)
  else if s.keyA || s.keyD then (s, false)
  else if (checkUpsideDown s.boardTargetRotationZ).2 then (s, false)
  else if RAIL_GRIND_DISTANCE_THRESHOLD ^ 2
      < getDistanceToRailSq s.railBox s.boardPos then (s, false)
  else
    let toRailX := s.boardPos.x - s.railPos.x
    let toRailZ := s.boardPos.z - s.railPos.z
    let projection := toRailX * railDirX + toRailZ * railDirZ
    let momentumDotRail := s.velocityX * railDirX + s.velocityZ * railDirZ
    ({ s with
        boardPos :=
          ⟨s.railPos.x + railDirX * projection,
           s.railPos.y + BOARD_HALF_HEIGHT,
           s.railPos.z + railDirZ * projection⟩
        railGrindDirection :=
          if MIN_MOMENTUM_DOT_RAIL < mathAbs momentumDotRail then
            (if 0 < momentumDotRail then 1 else -1)
          else 1
        isGrinding := true }, true)

/-- Example grind-entry state used by the C7 witness: board at `(1.2, 1, 1)`,
rail box `[0,1]³`, level board, grab held. -/
def grindEntryExample : GrindEntryState :=
  { railMeshExists := true
    boardMeshExists := true
    railBox := ⟨⟨0, 0, 0⟩, ⟨1, 1, 1⟩⟩
    railPos := ⟨0, 0.5, 0⟩
    boardPos := ⟨1.2, 1, 1⟩
    velocityX := 0.03
    velocityZ := 0
    boardTargetRotationZ := 0
    isOnFloor := false
    isLeftMouseHeld := true
    isRightMouseHeld := false
    keyA := false
    keyD := false
    isGrinding := false
    railGrindDirection := 0 }

/-- C7: given the other entry guards (meshes present, airborne, grab input
held, secondary input not held, no A/D keys, not upside down), `startGrinding`
succeeds iff the (squared) distance from the board to the rail's clamped
bounding box is at most the (squared) grind distance threshold; and for any
state whose distance is strictly greater than the threshold it returns
`false` with the entire state unchanged. -/
theorem claim_C7_grind_distance_gating (railDirX railDirZ : ℚ)
    (s : GrindEntryState) (hrm : s.railMeshExists = true)
    (hbm : s.boardMeshExists = true) (hair : s.isOnFloor = false)
    (hlm : s.isLeftMouseHeld = true) (hrmh : s.isRightMouseHeld = false)
    (ha : s.keyA = false) (hd : s.keyD = false)
    (hud : (checkUpsideDown s.boardTargetRotationZ).2 = false) :
    ((startGrinding railDirX railDirZ s).2 = true ↔
      getDistanceToRailSq s.railBox s.boardPos
        ≤ RAIL_GRIND_DISTANCE_THRESHOLD ^ 2) ∧
      (∀ s' : GrindEntryState,
        RAIL_GRIND_DISTANCE_THRESHOLD ^ 2
            < getDistanceToRailSq s'.railBox s'.boardPos →
          startGrinding railDirX railDirZ s' = (s', false)) := by
  constructor
  · unfold startGrinding
    simp only [hrm, hbm, hair, hlm, hrmh, ha, hd, hud, Bool.not_true,
      Bool.false_eq_true, if_false, Bool.or_self, Bool.not_false,
      Bool.true_eq_false, if_true]
    by_cases hdist : RAIL_GRIND_DISTANCE_THRESHOLD ^ 2
        < getDistanceToRailSq s.railBox s.boardPos
    · rw [if_pos hdist]
      simp [not_le.mpr hdist]
    · rw [if_neg hdist]
      dsimp only
      simp [not_lt.mp hdist]
  · intro s' hdist
    unfold startGrinding
    split_ifs with g1 g2 g3 g4 g5 g6 g7 <;> first | rfl | exact absurd hdist g7

/-- A level board (`rotation.z = 0`) is not upside down. -/
theorem checkUpsideDown_zero : (checkUpsideDown 0).2 = false := by
  have hn : normalizeAngle 0 ANGLE_NORMALIZATION_MAX_ATTEMPTS = 0 :=
    normalizeAngle_of_mem 0 _ le_rfl (by norm_num [TWO_PI, PI])
  simp only [checkUpsideDown, hn]
  norm_num [mathAbs, PI, TWO_PI, UPSIDE_DOWN_THRESHOLD]

theorem grindEntryExample_not_upside_down :
    (checkUpsideDown grindEntryExample.boardTargetRotationZ).2 = false :=
  checkUpsideDown_zero

/-- Witness for C7 at a concrete airborne state `0.2` away from the rail box. -/
theorem claim_C7_witness :
    (grindEntryExample.railMeshExists = true ∧
        grindEntryExample.boardMeshExists = true ∧
        grindEntryExample.isOnFloor = false ∧
        grindEntryExample.isLeftMouseHeld = true ∧
        grindEntryExample.isRightMouseHeld = false ∧
        grindEntryExample.keyA = false ∧ grindEntryExample.keyD = false ∧
        (checkUpsideDown grindEntryExample.boardTargetRotationZ).2 = false) ∧
      (((startGrinding (3/5) (4/5) grindEntryExample).2 = true ↔
        getDistanceToRailSq grindEntryExample.railBox grindEntryExample.boardPos
          ≤ RAIL_GRIND_DISTANCE_THRESHOLD ^ 2) ∧
        (∀ s' : GrindEntryState,
          RAIL_GRIND_DISTANCE_THRESHOLD ^ 2
              < getDistanceToRailSq s'.railBox s'.boardPos →
            startGrinding (3/5) (4/5) s' = (s', false))) :=
  ⟨⟨rfl, rfl, rfl, rfl, rfl, rfl, rfl, grindEntryExample_not_upside_down⟩,
   claim_C7_grind_distance_gating (3/5) (4/5) grindEntryExample rfl rfl rfl rfl
     rfl rfl rfl grindEntryExample_not_upside_down⟩

/-! ### C8: isGrinding / isInManual mutual exclusion

Flag-level model of `updatePhysics()`. Of all functions called from
`updatePhysics`, only `startGrinding` / `stopGrinding` (inside
`handleGrinding`), `handleCollision`, `handleFallDetection`,
`handleBoundaryTeleport` and `handleManualSystem` assign `isOnFloor`,
`previousIsOnFloor`, `isGrinding` or `isInManual`; between ticks only
`handleJump` (Space keydown, or left-mouse release while grinding) touches
them. The numeric guards those functions evaluate (distances, angles, the
collision result, the dip magnitude, the balance failure band) are abstracted
into per-tick environment booleans, so the theorem holds for every possible
valuation of them. -/

structure PhysFlags where
  isOnFloor : Bool
  previousIsOnFloor : Bool
  isGrinding : Bool
  isInManual : Bool
  deriving Repr, DecidableEq

/-- Per-tick inputs and outcomes of numeric guards, one boolean per guard
site in the source. -/
structure TickEnv where
  railMeshExists : Bool
  boardMeshExists : Bool
  isLeftMouseHeld : Bool
  isRightMouseHeld : Bool
  keyA : Bool
  keyD : Bool
  upsideDownAtEntry : Bool
  nearRail : Bool
  upsideDownWhileGrinding : Bool
  farFromRail : Bool
  surfaceHit : Bool
  fallTriggered : Bool
  boundaryTriggered : Bool
  upsideDownAtLanding : Bool
  dipAtLeastThreshold : Bool
  upsideDownInManual : Bool
  fallingInManual : Bool
  balanceFailed : Bool
  deriving Repr, DecidableEq

/-- Flag footprint of `startGrinding()`: guards in source order, then
`isGrinding := true`. -/
def startGrindingFlags (env : TickEnv) (s : PhysFlags) : PhysFlags :=
  if !env.railMeshExists || !env.boardMeshExists then s
  else if s.isOnFloor then s
  else if !env.isLeftMouseHeld then s
  else if env.isRightMouseHeld then s
  else if env.keyA || env.keyD then s
  else if env.upsideDownAtEntry then s
  else if !env.nearRail then s
  else { s with isGrinding := true }

/-- Flag footprint of `stopGrinding()`. -/
def stopGrindingFlags (s : PhysFlags) : PhysFlags :=
  if s.isGrinding then { s with isGrinding := false } else s

/-- Flag footprint of `handleGrinding()`: try to start, then the continue /
stop checks in source order (inputs, upside down, too far from rail, landed). -/
def handleGrindingFlags (env : TickEnv) (s : PhysFlags) : PhysFlags :=
  if !env.railMeshExists || !env.boardMeshExists then s
  else
    let s1 := if !s.isGrinding && env.isLeftMouseHeld then startGrindingFlags env s else s
    if !s1.isGrinding || !env.isLeftMouseHeld || env.isRightMouseHeld
        || env.keyA || env.keyD then
      (if s1.isGrinding then stopGrindingFlags s1 else s1)
    else if env.upsideDownWhileGrinding then stopGrindingFlags s1
    else if env.farFromRail then stopGrindingFlags s1
    else if s1.isOnFloor then stopGrindingFlags s1
    else s1

/-- Flag footprint of `handleCollision()`: latch `previousIsOnFloor`, then set
`isOnFloor` to whether a surface (pad, ramp or floor) was hit this tick. -/
def collisionFlags (env : TickEnv) (s : PhysFlags) : PhysFlags :=
  if !env.boardMeshExists then s
  else { s with previousIsOnFloor := s.isOnFloor, isOnFloor := env.surfaceHit }

/-- Flag footprint of `handleFallDetection()`: on a fall below the threshold,
teleport to spawn and exit any active state. -/
def fallResetFlags (env : TickEnv) (s : PhysFlags) : PhysFlags :=
  if !env.boardMeshExists then s
  else if env.fallTriggered then
    { s with isGrinding := false, isInManual := false, isOnFloor := true }
  else s

/-- Flag footprint of `handleBoundaryTeleport()`: identical reset when too far
from the center. -/
def boundaryResetFlags (env : TickEnv) (s : PhysFlags) : PhysFlags :=
  if !env.boardMeshExists then s
  else if env.boundaryTriggered then
    { s with isGrinding := false, isInManual := false, isOnFloor := true }
  else s

/-- Flag footprint of `handleManualSystem()`: landing-edge manual entry (only
when not grinding and not already in manual), then the grounded-manual branch
with its upside-down / falling / balance-failure exits, then the airborne
exit. -/
def manualFlags (env : TickEnv) (s : PhysFlags) : PhysFlags :=
  if !env.boardMeshExists then s
  else
    let justLanded := !s.previousIsOnFloor && s.isOnFloor
    let s1 :=
      if justLanded && !s.isGrinding && !s.isInManual then
        (if env.upsideDownAtLanding then s
         else if env.dipAtLeastThreshold then { s with isInManual := true }
         else s)
      else s
    if s1.isInManual && s1.isOnFloor then
      (if env.upsideDownInManual || env.fallingInManual then
        { s1 with isInManual := false }
       else if env.balanceFailed then { s1 with isInManual := false }
       else s1)
    else if s1.isInManual && !s1.isOnFloor then { s1 with isInManual := false }
    else s1

/-- One `updatePhysics()` tick, restricted to its flag footprint, in source
call order. -/
def physicsTickFlags (env : TickEnv) (s : PhysFlags) : PhysFlags :=
  manualFlags env (boundaryResetFlags env (fallResetFlags env
    (collisionFlags env (handleGrindingFlags env s))))

/-- Flag footprint of `handleJump()` (fires between ticks on Space or on
left-mouse release while grinding). -/
def handleJumpFlags (s : PhysFlags) : PhysFlags :=
  if s.isOnFloor || s.isGrinding then
    (if s.isGrinding then stopGrindingFlags s else s)
  else s

/-- Events that can touch the four flags. -/
inductive PhysEvent where
  | tick (env : TickEnv)
  | jump
  deriving Repr

def applyPhysEvent (s : PhysFlags) : PhysEvent → PhysFlags
  | .tick env => physicsTickFlags env s
  | .jump => handleJumpFlags s

def runPhysEvents (s : PhysFlags) : List PhysEvent → PhysFlags
  | [] => s
  | e :: es => runPhysEvents (applyPhysEvent s e) es

/-- Initial flags from `state.js`. -/
def initFlags : PhysFlags :=
  { isOnFloor := false, previousIsOnFloor := true, isGrinding := false,
    isInManual := false }

/-- Strengthened tick-boundary invariant: the two states are mutually
exclusive, and being in a manual implies being on the floor. -/
def flagsInv (s : PhysFlags) : Prop :=
  ¬(s.isGrinding = true ∧ s.isInManual = true) ∧
    (s.isInManual = true → s.isOnFloor = true)

theorem startGrindingFlags_isInManual (env : TickEnv) (s : PhysFlags) :
    (startGrindingFlags env s).isInManual = s.isInManual := by
  unfold startGrindingFlags
  split_ifs <;> rfl

theorem startGrindingFlags_isOnFloor (env : TickEnv) (s : PhysFlags) :
    (startGrindingFlags env s).isOnFloor = s.isOnFloor := by
  unfold startGrindingFlags
  split_ifs <;> rfl

theorem startGrindingFlags_previousIsOnFloor (env : TickEnv) (s : PhysFlags) :
    (startGrindingFlags env s).previousIsOnFloor = s.previousIsOnFloor := by
  unfold startGrindingFlags
  split_ifs <;> rfl

theorem stopGrindingFlags_isInManual (s : PhysFlags) :
    (stopGrindingFlags s).isInManual = s.isInManual := by
  unfold stopGrindingFlags
  split_ifs <;> rfl

theorem stopGrindingFlags_isOnFloor (s : PhysFlags) :
    (stopGrindingFlags s).isOnFloor = s.isOnFloor := by
  unfold stopGrindingFlags
  split_ifs <;> rfl

theorem stopGrindingFlags_previousIsOnFloor (s : PhysFlags) :
    (stopGrindingFlags s).previousIsOnFloor = s.previousIsOnFloor := by
  unfold stopGrindingFlags
  split_ifs <;> rfl

theorem stopGrindingFlags_isGrinding (s : PhysFlags) :
    (stopGrindingFlags s).isGrinding = false ∨ stopGrindingFlags s = s := by
  unfold stopGrindingFlags
  split_ifs
  · exact Or.inl rfl
  · exact Or.inr rfl

theorem handleGrindingFlags_isInManual (env : TickEnv) (s : PhysFlags) :
    (handleGrindingFlags env s).isInManual = s.isInManual := by
  unfold handleGrindingFlags
  dsimp only
  split_ifs <;>
    simp [startGrindingFlags_isInManual, stopGrindingFlags_isInManual]

theorem handleGrindingFlags_isOnFloor (env : TickEnv) (s : PhysFlags) :
    (handleGrindingFlags env s).isOnFloor = s.isOnFloor := by
  unfold handleGrindingFlags
  dsimp only
  split_ifs <;>
    simp [startGrindingFlags_isOnFloor, stopGrindingFlags_isOnFloor]

theorem handleGrindingFlags_previousIsOnFloor (env : TickEnv) (s : PhysFlags) :
    (handleGrindingFlags env s).previousIsOnFloor = s.previousIsOnFloor := by
  unfold handleGrindingFlags
  dsimp only
  split_ifs <;>
    simp [startGrindingFlags_previousIsOnFloor, stopGrindingFlags_previousIsOnFloor]

theorem startGrindingFlags_of_onFloor (env : TickEnv) (s : PhysFlags)
    (hf : s.isOnFloor = true) : startGrindingFlags env s = s := by
  unfold startGrindingFlags
  split_ifs <;> simp_all

/-- While on the floor and not grinding, `handleGrinding` cannot start a
grind (`startGrinding` requires being airborne). -/
theorem handleGrindingFlags_no_start (env : TickEnv) (s : PhysFlags)
    (hf : s.isOnFloor = true) (hg : s.isGrinding = false) :
    (handleGrindingFlags env s).isGrinding = false := by
  unfold handleGrindingFlags
  dsimp only
  rw [startGrindingFlags_of_onFloor env s hf, ite_self]
  split_ifs <;> simp_all [stopGrindingFlags]

theorem collisionFlags_isGrinding (env : TickEnv) (s : PhysFlags) :
    (collisionFlags env s).isGrinding = s.isGrinding := by
  unfold collisionFlags
  split_ifs <;> rfl

theorem collisionFlags_isInManual (env : TickEnv) (s : PhysFlags) :
    (collisionFlags env s).isInManual = s.isInManual := by
  unfold collisionFlags
  split_ifs <;> rfl

theorem fallResetFlags_cases (env : TickEnv) (s : PhysFlags) :
    fallResetFlags env s = s ∨
      ((fallResetFlags env s).isGrinding = false ∧
        (fallResetFlags env s).isInManual = false ∧
        (fallResetFlags env s).isOnFloor = true) := by
  unfold fallResetFlags
  split_ifs <;> simp

theorem boundaryResetFlags_cases (env : TickEnv) (s : PhysFlags) :
    boundaryResetFlags env s = s ∨
      ((boundaryResetFlags env s).isGrinding = false ∧
        (boundaryResetFlags env s).isInManual = false ∧
        (boundaryResetFlags env s).isOnFloor = true) := by
  unfold boundaryResetFlags
  split_ifs <;> simp

/-- The manual step restores the full invariant as long as any in-progress
manual excludes grinding on entry to the step. -/
theorem manualFlags_inv_of_mesh (env : TickEnv) (s : PhysFlags)
    (hmesh : env.boardMeshExists = true)
    (hQ : s.isInManual = true → s.isGrinding = false) :
    flagsInv (manualFlags env s) := by
  unfold flagsInv manualFlags
  rw [hmesh]
  dsimp only
  split_ifs <;> constructor <;> simp_all

theorem collisionFlags_of_mesh_false (env : TickEnv) (s : PhysFlags)
    (hmesh : env.boardMeshExists = false) : collisionFlags env s = s := by
  unfold collisionFlags
  rw [hmesh]
  rfl

theorem fallResetFlags_of_mesh_false (env : TickEnv) (s : PhysFlags)
    (hmesh : env.boardMeshExists = false) : fallResetFlags env s = s := by
  unfold fallResetFlags
  rw [hmesh]
  rfl

theorem boundaryResetFlags_of_mesh_false (env : TickEnv) (s : PhysFlags)
    (hmesh : env.boardMeshExists = false) : boundaryResetFlags env s = s := by
  unfold boundaryResetFlags
  rw [hmesh]
  rfl

theorem manualFlags_of_mesh_false (env : TickEnv) (s : PhysFlags)
    (hmesh : env.boardMeshExists = false) : manualFlags env s = s := by
  unfold manualFlags
  rw [hmesh]
  rfl

/-- One physics tick preserves the invariant, for every valuation of the
guard outcomes. -/
theorem flagsInv_tick (env : TickEnv) (s : PhysFlags) (h : flagsInv s) :
    flagsInv (physicsTickFlags env s) := by
  obtain ⟨hGM, hMF⟩ := h
  have hQ1 : (handleGrindingFlags env s).isInManual = true →
      (handleGrindingFlags env s).isGrinding = false := by
    rw [handleGrindingFlags_isInManual]
    intro hm
    have hg : s.isGrinding = false := by
      cases hg : s.isGrinding
      · rfl
      · exact absurd ⟨hg, hm⟩ hGM
    exact handleGrindingFlags_no_start env s (hMF hm) hg
  unfold physicsTickFlags
  cases hmesh : env.boardMeshExists with
  | false =>
    rw [collisionFlags_of_mesh_false env _ hmesh,
      fallResetFlags_of_mesh_false env _ hmesh,
      boundaryResetFlags_of_mesh_false env _ hmesh,
      manualFlags_of_mesh_false env _ hmesh]
    constructor
    · intro hc
      exact absurd hc.1 (by simp [hQ1 hc.2])
    · intro hm
      rw [handleGrindingFlags_isOnFloor]
      exact hMF (by rwa [handleGrindingFlags_isInManual] at hm)
  | true =>
    have hQ2 : (collisionFlags env (handleGrindingFlags env s)).isInManual = true →
        (collisionFlags env (handleGrindingFlags env s)).isGrinding = false := by
      rw [collisionFlags_isInManual, collisionFlags_isGrinding]
      exact hQ1
    have hQ3 : ∀ s' : PhysFlags,
        (s'.isInManual = true → s'.isGrinding = false) →
        ((fallResetFlags env s').isInManual = true →
          (fallResetFlags env s').isGrinding = false) := by
      intro s' hq
      rcases fallResetFlags_cases env s' with hc | hc
      · rw [hc]; exact hq
      · intro hm
        exact hc.1
    have hQ4 : ∀ s' : PhysFlags,
        (s'.isInManual = true → s'.isGrinding = false) →
        ((boundaryResetFlags env s').isInManual = true →
          (boundaryResetFlags env s').isGrinding = false) := by
      intro s' hq
      rcases boundaryResetFlags_cases env s' with hc | hc
      · rw [hc]; exact hq
      · intro hm
        exact hc.1
    exact manualFlags_inv_of_mesh env _ hmesh
      (hQ4 _ (hQ3 _ hQ2))

/-- A jump event preserves the invariant (it only ever clears `isGrinding`). -/
theorem flagsInv_jump (s : PhysFlags) (h : flagsInv s) :
    flagsInv (handleJumpFlags s) := by
  obtain ⟨hGM, hMF⟩ := h
  unfold flagsInv handleJumpFlags stopGrindingFlags
  split_ifs <;> constructor <;> simp_all

theorem flagsInv_run (events : List PhysEvent) :
    ∀ s : PhysFlags, flagsInv s → flagsInv (runPhysEvents s events) := by
  induction events with
  | nil => intro s h; exact h
  | cons e es ih =>
    intro s h
    cases e with
    | tick env => exact ih _ (flagsInv_tick env s h)
    | jump => exact ih _ (flagsInv_jump s h)

/-- C8: after any sequence of physics ticks (with arbitrary guard outcomes)
and jump events starting from the initial state, `isGrinding` and
`isInManual` are never both true: grind entry requires being airborne, the
manual step exits the manual state whenever the board is airborne, and manual
entry on landing requires `isGrinding` to be false. -/
theorem claim_C8_grind_manual_mutually_exclusive (events : List PhysEvent) :
    ¬((runPhysEvents initFlags events).isGrinding = true ∧
      (runPhysEvents initFlags events).isInManual = true) :=
  (flagsInv_run events initFlags (by constructor <;> simp [initFlags])).1

/-! ### C9: manual-balance minigame (handleManualSystem in physics.js)

The embedding covers every field `handleManualSystem` reads or writes except
`boardMesh.position.y` (the anti-clipping raise, which involves `Math.sin`
and feeds back into nothing the manual logic reads) and the balance-bar UI
writes. `state.input.scrollDelta` is modeled as a per-tick environment input;
`Math.random() > 0.5` at manual entry is the environment bit
`randGreaterHalf`. -/

structure ManualState where
  boardMeshExists : Bool
  isOnFloor : Bool
  previousIsOnFloor : Bool
  isGrinding : Bool
  isInManual : Bool
  manualBalance : ℚ
  manualBalanceDirection : ℤ
  manualPitch : ℚ
  targetManualPitch : ℚ
  manualEntryPitch : ℚ
  alignedRotationX : ℚ
  boardTargetRotationX : ℚ
  boardTargetRotationZ : ℚ
  velocityY : ℚ
  currentSurfaceIsRamp : Bool
  deriving Repr, DecidableEq

structure ManualEnv where
  scrollDelta : ℚ
  randGreaterHalf : Bool
  deriving Repr, DecidableEq

/-- Embedding of `handleManualSystem()`: airborne dipping, manual entry on
landing (with the U-shaped balance seed), grounded balance mechanics with
the upside-down / falling and balance-failure exits, the airborne exit, and
the post-manual pitch decay, in source order. -/
def handleManualSystem (env : ManualEnv) (s : ManualState) : ManualState :=
  if !s.boardMeshExists then s
  else
    -- airborne board dipping (only when NOT in manual)
    let s :=
      if !s.isOnFloor && !s.isGrinding && !s.isInManual then
        let s :=
          if 0.1 < mathAbs env.scrollDelta then
            let normalizedScroll := mathMax (-100) (mathMin 100 env.scrollDelta)
            let dipChange := -normalizedScroll * MANUAL_DIP_SPEED
            let tmp := s.targetManualPitch + dipChange
            { s with targetManualPitch :=
                mathMax MANUAL_MIN_DIP (mathMin MANUAL_MAX_DIP tmp) }
          else s
        let pitchDiff := s.targetManualPitch - s.manualPitch
        let s := { s with manualPitch := s.manualPitch + pitchDiff * MANUAL_DIP_SMOOTHING }
        if 0.001 < mathAbs s.manualPitch then
          -- applyManualPitchRotation()
          { s with boardTargetRotationX := s.manualPitch, alignedRotationX := 0 }
        else
          { s with boardTargetRotationX := 0, targetManualPitch := 0 }
      else s
    -- manual entry on landing
    let justLanded := !s.previousIsOnFloor && s.isOnFloor
    let s :=
      if justLanded && !s.isGrinding && !s.isInManual then
        if (checkUpsideDown s.boardTargetRotationZ).2 then
          { s with manualPitch := 0, targetManualPitch := 0,
                   boardTargetRotationX := s.alignedRotationX }
        else if MANUAL_DIP_THRESHOLD ≤ mathAbs s.manualPitch then
          let entryPitch := s.manualPitch
          let normalizedPitch := s.manualPitch / MANUAL_MAX_DIP
          let absNormalizedPitch := mathAbs normalizedPitch
          let curveFactor := (2 * absNormalizedPitch - 1) * 0.4
          let balance0 := 0.5 + normalizedPitch * curveFactor
          let balance := mathMax 0.15 (mathMin 0.85 balance0)
          let direction : ℤ := if env.randGreaterHalf then 1 else -1
          let normalizedBalance := (balance - 0.5) * 2
          let pitch := entryPitch + normalizedBalance * MANUAL_MAX_DIP
          { s with isInManual := true, manualEntryPitch := entryPitch,
                   manualBalance := balance, manualBalanceDirection := direction,
                   manualPitch := pitch,
                   boardTargetRotationX := s.alignedRotationX + pitch }
        else
          { s with manualPitch := 0, targetManualPitch := 0,
                   boardTargetRotationX := s.alignedRotationX }
      else s
    -- manual balance mechanics
    let s :=
      if s.isInManual && s.isOnFloor then
        if (checkUpsideDown s.boardTargetRotationZ).2 = true ∨ s.velocityY < -0.01 then
          { s with isInManual := false, manualBalance := 0.5,
                   manualBalanceDirection := 1, manualPitch := 0,
                   targetManualPitch := 0 }
        else
          let normalizedBalance := (s.manualBalance - 0.5) * 2
          let pitch := s.manualEntryPitch + normalizedBalance * MANUAL_MAX_DIP
          let s := { s with manualPitch := pitch,
                            boardTargetRotationX := s.alignedRotationX + pitch }
          -- board-position anti-clipping adjustment omitted (position only)
          let s :=
            if 0.1 < mathAbs env.scrollDelta then
              let normalizedScroll := mathMax (-100) (mathMin 100 env.scrollDelta)
              if normalizedScroll < 0 then { s with manualBalanceDirection := 1 }
              else if 0 < normalizedScroll then { s with manualBalanceDirection := -1 }
              else s
            else s
          let s := { s with manualBalance :=
              s.manualBalance + s.manualBalanceDirection * MANUAL_BALANCE_LINEAR_SPEED }
          let s := { s with manualBalance := mathMax 0 (mathMin 1 s.manualBalance) }
          if s.manualBalance ≤ MANUAL_BALANCE_FAILURE_THRESHOLD ∨
              1 - MANUAL_BALANCE_FAILURE_THRESHOLD ≤ s.manualBalance then
            { s with isInManual := false, manualBalance := 0.5,
                     manualBalanceDirection := 1, manualPitch := 0,
                     targetManualPitch := 0, manualEntryPitch := 0 }
          else s
      else if s.isInManual && !s.isOnFloor then
        { s with isInManual := false, manualBalance := 0.5,
                 manualBalanceDirection := 1, manualEntryPitch := 0 }
      else s
    -- return board to normal if manual ended (pitch decay)
    if !s.isInManual && s.isOnFloor && !s.currentSurfaceIsRamp
        && 0.01 < mathAbs s.manualPitch then
      let p := s.manualPitch * (1 - MANUAL_RETURN_SPEED)
      let p := if mathAbs p < 0.01 then 0 else p
      { s with manualPitch := p, boardTargetRotationX := p }
    else s

/-- Iterated manual ticks with a fixed per-tick environment. -/
def manualIter (env : ManualEnv) (s : ManualState) : ℕ → ManualState
  | 0 => s
  | n + 1 => handleManualSystem env (manualIter env s n)

/-- Side conditions of the C9 scenario: grounded (and was grounded), not
grinding, not upside down, not falling, no scroll input. -/
def manualBase (env : ManualEnv) (s : ManualState) : Prop :=
  s.boardMeshExists = true ∧ s.isOnFloor = true ∧ s.previousIsOnFloor = true ∧
    s.isGrinding = false ∧ (checkUpsideDown s.boardTargetRotationZ).2 = false ∧
    ¬(s.velocityY < -0.01) ∧ env.scrollDelta = 0

/-- Closed form of one grounded, correction-free manual tick while in the
manual state: the pitch is recomputed from the balance, the balance advances
by one signed step (clamped into `[0,1]`), and the failure band at either
edge exits the manual with balance and pitch reset. -/
theorem manual_tick_formula (env : ManualEnv) (s : ManualState)
    (hbase : manualBase env s) (hM : s.isInManual = true) :
    handleManualSystem env s =
      (let pitch := s.manualEntryPitch + (s.manualBalance - 0.5) * 2 * MANUAL_MAX_DIP
       let bc := mathMax 0 (mathMin 1
         (s.manualBalance + (s.manualBalanceDirection : ℚ) * MANUAL_BALANCE_LINEAR_SPEED))
       if bc ≤ MANUAL_BALANCE_FAILURE_THRESHOLD ∨
           1 - MANUAL_BALANCE_FAILURE_THRESHOLD ≤ bc then
         { s with isInManual := false, manualBalance := 0.5,
                  manualBalanceDirection := 1, manualPitch := 0,
                  targetManualPitch := 0, manualEntryPitch := 0,
                  boardTargetRotationX := s.alignedRotationX + pitch }
       else
         { s with manualPitch := pitch,
                  boardTargetRotationX := s.alignedRotationX + pitch,
                  manualBalance := bc }) := by
  obtain ⟨hmesh, hfloor, hprev, hgrind, hud, hfall, hscroll⟩ := hbase
  have h001 : ¬((0.01 : ℚ) < 0) := by norm_num
  have h01 : ¬((0.1 : ℚ) < 0) := by norm_num
  have hcond : ((checkUpsideDown s.boardTargetRotationZ).2 = true ∨
      s.velocityY < -0.01) = False := eq_false (by
    rintro (h | h)
    · rw [hud] at h
      exact Bool.false_ne_true h
    · exact hfall h)
  unfold handleManualSystem
  simp only [hmesh, hfloor, hprev, hgrind, hM, hscroll, mathAbs_zero, h001, h01,
    hcond, Bool.not_true, Bool.false_and, Bool.and_self, Bool.true_and,
    Bool.and_true, Bool.and_false, Bool.false_eq_true, if_false, if_true,
    eq_self_iff_true, ite_false, ite_true]
  set bc := mathMax 0 (mathMin 1
    (s.manualBalance + (s.manualBalanceDirection : ℚ) * MANUAL_BALANCE_LINEAR_SPEED)) with hbc
  by_cases h1 : bc ≤ MANUAL_BALANCE_FAILURE_THRESHOLD ∨
      1 - MANUAL_BALANCE_FAILURE_THRESHOLD ≤ bc
  · have hF : (bc ≤ MANUAL_BALANCE_FAILURE_THRESHOLD ∨
        1 - MANUAL_BALANCE_FAILURE_THRESHOLD ≤ bc) = True := eq_true h1
    simp only [hF, ite_true]
    simp [mathAbs_zero, h001]
  · have hF : (bc ≤ MANUAL_BALANCE_FAILURE_THRESHOLD ∨
        1 - MANUAL_BALANCE_FAILURE_THRESHOLD ≤ bc) = False := eq_false h1
    simp only [hF, ite_false]
    simp [hM]

/-- Clamping into `[0,1]` is the identity on values strictly inside the
failure band's complement. -/
theorem clamp01_eq_self (x : ℚ)
    (hlo : MANUAL_BALANCE_FAILURE_THRESHOLD < mathMax 0 (mathMin 1 x))
    (hhi : mathMax 0 (mathMin 1 x) < 1 - MANUAL_BALANCE_FAILURE_THRESHOLD) :
    mathMax 0 (mathMin 1 x) = x := by
  unfold mathMax mathMin at *
  split_ifs at * with h1 h2 <;>
    first
      | rfl
      | (exfalso; norm_num [MANUAL_BALANCE_FAILURE_THRESHOLD] at hlo hhi <;> linarith)

/-- One grounded, correction-free tick while in the manual: either the
balance advances by exactly one signed linear step and the manual continues
(strictly inside the failure band), or the tick exits the manual with balance
and pitch reset. -/
theorem manual_tick_cases (env : ManualEnv) (s : ManualState)
    (hbase : manualBase env s) (hM : s.isInManual = true) :
    ((handleManualSystem env s).isInManual = true ∧
        (handleManualSystem env s).manualBalance
          = s.manualBalance + (s.manualBalanceDirection : ℚ) * MANUAL_BALANCE_LINEAR_SPEED ∧
        (handleManualSystem env s).manualBalanceDirection = s.manualBalanceDirection ∧
        manualBase env (handleManualSystem env s) ∧
        MANUAL_BALANCE_FAILURE_THRESHOLD < (handleManualSystem env s).manualBalance ∧
        (handleManualSystem env s).manualBalance < 1 - MANUAL_BALANCE_FAILURE_THRESHOLD) ∨
      ((handleManualSystem env s).isInManual = false ∧
        (handleManualSystem env s).manualBalance = 0.5 ∧
        (handleManualSystem env s).manualPitch = 0 ∧
        manualBase env (handleManualSystem env s)) := by
  obtain ⟨hmesh, hfloor, hprev, hgrind, hud, hfall, hscroll⟩ := hbase
  rw [manual_tick_formula env s
    ⟨hmesh, hfloor, hprev, hgrind, hud, hfall, hscroll⟩ hM]
  dsimp only
  set bc := mathMax 0 (mathMin 1
    (s.manualBalance + (s.manualBalanceDirection : ℚ) * MANUAL_BALANCE_LINEAR_SPEED)) with hbc
  by_cases h1 : bc ≤ MANUAL_BALANCE_FAILURE_THRESHOLD ∨
      1 - MANUAL_BALANCE_FAILURE_THRESHOLD ≤ bc
  · rw [if_pos h1]
    exact Or.inr ⟨rfl, rfl, rfl, hmesh, hfloor, hprev, hgrind, hud, hfall, hscroll⟩
  · rw [if_neg h1]
    push_neg at h1
    refine Or.inl ⟨hM, ?_, rfl,
      ⟨hmesh, hfloor, hprev, hgrind, hud, hfall, hscroll⟩, h1.1, h1.2⟩
    exact clamp01_eq_self _ h1.1 h1.2

/-- An exited manual state with zero pitch is a fixed point of the manual
tick under the C9 side conditions. -/
theorem manual_tick_exited (env : ManualEnv) (s : ManualState)
    (hbase : manualBase env s) (hM : s.isInManual = false)
    (hp : s.manualPitch = 0) : handleManualSystem env s = s := by
  obtain ⟨hmesh, hfloor, hprev, hgrind, hud, hfall, hscroll⟩ := hbase
  have h001 : ¬((0.01 : ℚ) < 0) := by norm_num
  unfold handleManualSystem
  simp [hmesh, hfloor, hprev, hgrind, hM, hp, mathAbs_zero, h001]

/-- Invariant along the iteration: either still in the manual with the
balance an exact linear function of the tick count (strictly inside the
failure band), or exited with balance and pitch reset. -/
theorem manualIter_invariant (env : ManualEnv) (s0 : ManualState) (b0 : ℚ) (d : ℤ)
    (hbase : manualBase env s0) (hM0 : s0.isInManual = true)
    (hb0 : s0.manualBalance = b0) (hd0 : s0.manualBalanceDirection = d)
    (hlo : 0.15 ≤ b0) (hhi : b0 ≤ 0.85) :
    ∀ n : ℕ,
      ((manualIter env s0 n).isInManual = true ∧
        (manualIter env s0 n).manualBalance
          = b0 + (d : ℚ) * MANUAL_BALANCE_LINEAR_SPEED * n ∧
        (manualIter env s0 n).manualBalanceDirection = d ∧
        manualBase env (manualIter env s0 n) ∧
        MANUAL_BALANCE_FAILURE_THRESHOLD < (manualIter env s0 n).manualBalance ∧
        (manualIter env s0 n).manualBalance < 1 - MANUAL_BALANCE_FAILURE_THRESHOLD) ∨
      ((manualIter env s0 n).isInManual = false ∧
        (manualIter env s0 n).manualBalance = 0.5 ∧
        (manualIter env s0 n).manualPitch = 0 ∧
        manualBase env (manualIter env s0 n)) := by
  intro n
  induction n with
  | zero =>
    refine Or.inl ⟨hM0, by simpa using hb0, hd0, hbase, ?_, ?_⟩ <;>
      rw [show manualIter env s0 0 = s0 from rfl, hb0] <;>
      norm_num [MANUAL_BALANCE_FAILURE_THRESHOLD] <;> linarith
  | succ n ih =>
    rcases ih with ⟨hMn, hbn, hdn, hbasen, _, _⟩ | ⟨hMn, hbn, hpn, hbasen⟩
    · rcases manual_tick_cases env (manualIter env s0 n) hbasen hMn with
        ⟨hM', hb', hd', hbase', hlo', hhi'⟩ | ⟨hM', hb', hp', hbase'⟩
      · refine Or.inl ⟨hM', ?_,
          by rw [show manualIter env s0 (n + 1)
              = handleManualSystem env (manualIter env s0 n) from rfl, hd', hdn],
          hbase', hlo', hhi'⟩
        rw [show manualIter env s0 (n + 1)
            = handleManualSystem env (manualIter env s0 n) from rfl, hb', hbn, hdn]
        push_cast
        ring
      · exact Or.inr ⟨hM', hb', hp', hbase'⟩
    · have hfix : handleManualSystem env (manualIter env s0 n) = manualIter env s0 n :=
        manual_tick_exited env _ hbasen hMn hpn
      rw [show manualIter env s0 (n + 1)
          = handleManualSystem env (manualIter env s0 n) from rfl, hfix]
      exact Or.inr ⟨hMn, hbn, hpn, hbasen⟩

/-- C9: for every legal manual entry (balance seed in `[0.15, 0.85]`, drift
direction `±1`), repeatedly ticking `handleManualSystem` while grounded, not
upside down, not falling and with no scroll input moves `manualBalance` by a
constant signed step each tick, and reaches the failure exit (`isInManual`
set false, balance and pitch reset) within at most 90 ticks. -/
theorem claim_C9_manual_failure_bound (env : ManualEnv) (s0 : ManualState)
    (b0 : ℚ) (d : ℤ) (hbase : manualBase env s0) (hM0 : s0.isInManual = true)
    (hb0 : s0.manualBalance = b0) (hd0 : s0.manualBalanceDirection = d)
    (hlo : 0.15 ≤ b0) (hhi : b0 ≤ 0.85) (hd : d = 1 ∨ d = -1) :
    (∀ n : ℕ, (manualIter env s0 (n + 1)).isInManual = true →
        (manualIter env s0 (n + 1)).manualBalance
          = (manualIter env s0 n).manualBalance
            + (d : ℚ) * MANUAL_BALANCE_LINEAR_SPEED) ∧
      (∃ k : ℕ, k ≤ 90 ∧ (manualIter env s0 k).isInManual = false ∧
        (manualIter env s0 k).manualBalance = 0.5 ∧
        (manualIter env s0 k).manualPitch = 0) := by
  have hinv := manualIter_invariant env s0 b0 d hbase hM0 hb0 hd0 hlo hhi
  constructor
  · intro n hM'
    rcases hinv n with ⟨hMn, hbn, hdn, hbasen, _, _⟩ | ⟨hMn, hbn, hpn, hbasen⟩
    · rcases manual_tick_cases env (manualIter env s0 n) hbasen hMn with
        ⟨_, hb', hd', _, _, _⟩ | ⟨hM'', _, _, _⟩
      · rw [show manualIter env s0 (n + 1)
            = handleManualSystem env (manualIter env s0 n) from rfl, hb', hdn]
      · rw [show manualIter env s0 (n + 1)
            = handleManualSystem env (manualIter env s0 n) from rfl] at hM'
        rw [hM''] at hM'
        exact absurd hM' (by simp)
    · have hfix : handleManualSystem env (manualIter env s0 n) = manualIter env s0 n :=
        manual_tick_exited env _ hbasen hMn hpn
      rw [show manualIter env s0 (n + 1)
          = handleManualSystem env (manualIter env s0 n) from rfl, hfix] at hM'
      rw [hMn] at hM'
      exact absurd hM' (by simp)
  · refine ⟨80, by norm_num, ?_⟩
    rcases hinv 80 with ⟨hM80, hb80, _, _, hlo80, hhi80⟩ | ⟨hM80, hb80, hp80, _⟩
    · exfalso
      rw [hb80] at hlo80 hhi80
      rcases hd with hd1 | hd1 <;> rw [hd1] at hlo80 hhi80 <;>
        norm_num [MANUAL_BALANCE_FAILURE_THRESHOLD, MANUAL_BALANCE_LINEAR_SPEED]
          at hlo80 hhi80 <;> linarith
    · exact ⟨hM80, hb80, hp80⟩

/-- Example manual state for the C9 witness: centered balance, upward drift. -/
def manualExample : ManualState :=
  { boardMeshExists := true
    isOnFloor := true
    previousIsOnFloor := true
    isGrinding := false
    isInManual := true
    manualBalance := 0.5
    manualBalanceDirection := 1
    manualPitch := 0.2
    targetManualPitch := 0
    manualEntryPitch := 0.2
    alignedRotationX := 0
    boardTargetRotationX := 0.2
    boardTargetRotationZ := 0
    velocityY := 0
    currentSurfaceIsRamp := false }

def manualEnvExample : ManualEnv := { scrollDelta := 0, randGreaterHalf := true }

theorem manualExample_base : manualBase manualEnvExample manualExample :=
  ⟨rfl, rfl, rfl, rfl, checkUpsideDown_zero,
   by show ¬((0 : ℚ) < -0.01); norm_num, rfl⟩

/-- Witness for C9 at the example state (balance seed `0.5`, direction `1`). -/
theorem claim_C9_witness :
    (manualBase manualEnvExample manualExample ∧
        manualExample.isInManual = true ∧
        manualExample.manualBalance = 0.5 ∧
        manualExample.manualBalanceDirection = 1 ∧
        (0.15 : ℚ) ≤ 0.5 ∧ (0.5 : ℚ) ≤ 0.85 ∧ ((1 : ℤ) = 1 ∨ (1 : ℤ) = -1)) ∧
      ((∀ n : ℕ,
          (manualIter manualEnvExample manualExample (n + 1)).isInManual = true →
          (manualIter manualEnvExample manualExample (n + 1)).manualBalance
            = (manualIter manualEnvExample manualExample n).manualBalance
              + ((1 : ℤ) : ℚ) * MANUAL_BALANCE_LINEAR_SPEED) ∧
        (∃ k : ℕ, k ≤ 90 ∧
          (manualIter manualEnvExample manualExample k).isInManual = false ∧
          (manualIter manualEnvExample manualExample k).manualBalance = 0.5 ∧
          (manualIter manualEnvExample manualExample k).manualPitch = 0)) :=
  ⟨⟨manualExample_base, rfl, rfl, rfl, by norm_num, by norm_num, Or.inl rfl⟩,
   claim_C9_manual_failure_bound manualEnvExample manualExample 0.5 1
     manualExample_base rfl rfl rfl (by norm_num) (by norm_num) (Or.inl rfl)⟩

/-! ### C6: grind entry and the combo (tricks.js)

Model of the combo/tracker state touched by `addGrindToCombo()` (called from
`startGrinding()`), with `detectTrickNameFromStats`, `getCurrentTrickStats`,
`addItemToCombo`, `resetTrickStats` and `restartTrackers` embedded from the
source. `tricksData` is the externally loaded JSON trick table
(name → `[flips, body180s, shuvs, ...]`, `Object.entries` order); the camera
angle fed to `body180Tracker.start` is `Math.atan2(dx, dz)` (transcendental),
so it is part of the state. The UI display writes are omitted. -/

def mathMaxInt (a b : ℤ) : ℤ := if a < b then b else a

def mathMinInt (a b : ℤ) : ℤ := if b < a then b else a

structure TrickStats where
  flips : ℤ
  body180s : ℤ
  shuvs : ℤ
  wasFakie : Bool
  deriving Repr, DecidableEq

structure TricksState where
  flipTracker : RotationTracker
  body180Tracker : RotationTracker
  shuvTracker : RotationTracker
  trickStats : TrickStats
  comboTricks : List String
  comboActive : Bool
  tricksData : Option (List (String × List ℤ))
  boardMeshExists : Bool
  isOnFloor : Bool
  boardRotZ : ℚ
  cameraAngle : ℚ
  deriving Repr, DecidableEq

/-- Embedding of `getCurrentTrickStats()`; the counts are integers already,
so the `Number.isInteger`/`Math.round` validation is the identity. -/
def getCurrentTrickStats (s : TricksState) : TrickStats :=
  { flips := if s.flipTracker.isActive then s.flipTracker.getCount else 0
    body180s := if s.body180Tracker.isActive then s.body180Tracker.getCount else 0
    shuvs := if s.shuvTracker.isActive then s.shuvTracker.getCount else 0
    wasFakie := s.trickStats.wasFakie }

/-- Specificity of a trick-table entry: count of nonzero components among the
first three (`slice(0,3).filter(v => v !== 0).length`). -/
def specificity (vals : List ℤ) : ℕ :=
  ((vals.take 3).filter (fun v => v ≠ 0)).length

/-- Embedding of `detectTrickNameFromStats(stats)`: clamp the stats into
`[-10, 10]` (`Math.round` is the identity on integers), suppress the all-zero
triple, sort entries by specificity descending (JS `sort` is stable, as is
`mergeSort`), and return the first exact match, with a `"Fakie "` prefix when
`wasFakie`; underscores in the table name become spaces. -/
def detectTrickNameFromStats (tricksData : Option (List (String × List ℤ)))
    (stats : TrickStats) : Option String :=
  match tricksData with
  | none => none
  | some entries =>
    let flips := mathMaxInt (-10) (mathMinInt 10 stats.flips)
    let body180s := mathMaxInt (-10) (mathMinInt 10 stats.body180s)
    let shuvs := mathMaxInt (-10) (mathMinInt 10 stats.shuvs)
    if flips = 0 ∧ body180s = 0 ∧ shuvs = 0 then none
    else
      let sorted := entries.mergeSort
        (fun a b => decide (specificity b.2 ≤ specificity a.2))
      match sorted.find? (fun e => e.2.take 3 = [flips, body180s, shuvs]) with
      | none => none
      | some e =>
        let displayName := e.1.replace "_" " "
        some (if stats.wasFakie then "Fakie " ++ displayName else displayName)

/-- Embedding of `ensureComboActive()`. -/
def ensureComboActive (s : TricksState) : TricksState :=
  if !s.comboActive then { s with comboActive := true, comboTricks := [] } else s

/-- Embedding of `addItemToCombo(item)` (duplicate-of-last suppression). -/
def addItemToCombo (item : String) (s : TricksState) : TricksState :=
  let s := ensureComboActive s
  if s.comboTricks.getLast? ≠ some item then
    { s with comboTricks := s.comboTricks ++ [item] }
  else s

/-- Embedding of `resetTrickStats()` (UI write omitted). -/
def resetTrickStats (s : TricksState) : TricksState :=
  { s with
    flipTracker := s.flipTracker.reset
    body180Tracker := s.body180Tracker.reset
    shuvTracker := s.shuvTracker.reset
    trickStats := { flips := 0, body180s := 0, shuvs := 0, wasFakie := false } }

/-- Embedding of `restartTrackers()`: restart flip and body-180 trackers with
fresh baselines, reset (not start) the shuv tracker; no-op when grounded or
without a board mesh. -/
def restartTrackers (s : TricksState) : TricksState :=
  if !s.boardMeshExists || s.isOnFloor then s
  else
    { s with
      flipTracker := s.flipTracker.start s.boardRotZ
      body180Tracker := s.body180Tracker.start s.cameraAngle
      shuvTracker := s.shuvTracker.reset }

/-- Embedding of `addGrindToCombo()` with the feedback flag as a parameter. -/
def addGrindToComboWith (showFeedback : Bool) (s : TricksState) : TricksState :=
  if !showFeedback then s
  else
    let currentStats := getCurrentTrickStats s
    let trickName := detectTrickNameFromStats s.tricksData currentStats
    let s1 := match trickName with
      | some nm => addItemToCombo nm s
      | none => s
    let s2 := addItemToCombo "Grind" s1
    restartTrackers (resetTrickStats s2)

/-- Embedding of `addGrindToCombo()` as shipped
(`SHOW_TRICK_NAME_FEEDBACK = false`). -/
def addGrindToCombo (s : TricksState) : TricksState :=
  addGrindToComboWith SHOW_TRICK_NAME_FEEDBACK s

theorem addItemToCombo_getLast (item : String) (s : TricksState) :
    (addItemToCombo item s).comboTricks.getLast? = some item := by
  unfold addItemToCombo ensureComboActive
  dsimp only
  split_ifs <;> simp_all

theorem addItemToCombo_mem (item : String) (s : TricksState) :
    item ∈ (addItemToCombo item s).comboTricks :=
  List.mem_of_mem_getLast? (addItemToCombo_getLast item s)

theorem addItemToCombo_active (item : String) (s : TricksState) :
    (addItemToCombo item s).comboActive = true := by
  unfold addItemToCombo ensureComboActive
  dsimp only
  split_ifs <;> simp_all

theorem addItemToCombo_mem_preserved (x item : String) (s : TricksState)
    (hx : x ∈ s.comboTricks) (hact : s.comboActive = true) :
    x ∈ (addItemToCombo item s).comboTricks := by
  unfold addItemToCombo ensureComboActive
  dsimp only
  simp only [hact, Bool.not_true, Bool.false_eq_true, if_false]
  split_ifs <;> simp [hx]

theorem addItemToCombo_frame (item : String) (s : TricksState) :
    (addItemToCombo item s).flipTracker = s.flipTracker ∧
      (addItemToCombo item s).body180Tracker = s.body180Tracker ∧
      (addItemToCombo item s).shuvTracker = s.shuvTracker ∧
      (addItemToCombo item s).boardMeshExists = s.boardMeshExists ∧
      (addItemToCombo item s).isOnFloor = s.isOnFloor ∧
      (addItemToCombo item s).boardRotZ = s.boardRotZ ∧
      (addItemToCombo item s).cameraAngle = s.cameraAngle := by
  unfold addItemToCombo ensureComboActive
  dsimp only
  split_ifs <;> exact ⟨rfl, rfl, rfl, rfl, rfl, rfl, rfl⟩

theorem restartTrackers_eq (s : TricksState) (hmesh : s.boardMeshExists = true)
    (hair : s.isOnFloor = false) :
    restartTrackers s =
      { s with
        flipTracker := s.flipTracker.start s.boardRotZ
        body180Tracker := s.body180Tracker.start s.cameraAngle
        shuvTracker := s.shuvTracker.reset } := by
  unfold restartTrackers
  simp [hmesh, hair]

/-- Example grind-entry trick state for C6: airborne, empty combo, a
one-entry trick table. -/
def tricksExample : TricksState :=
  { flipTracker := RotationTracker.mk' axisZ TWO_PI
    body180Tracker := RotationTracker.mk' axisCamera PI
    shuvTracker := RotationTracker.mk' axisY PI
    trickStats := { flips := 0, body180s := 0, shuvs := 0, wasFakie := false }
    comboTricks := []
    comboActive := false
    tricksData := some [("Kickflip", [1, 0, 0])]
    boardMeshExists := true
    isOnFloor := false
    boardRotZ := 1
    cameraAngle := 2 }

/-- C6 counterexample: in the shipped build (`SHOW_TRICK_NAME_FEEDBACK =
false`) `addGrindToCombo()` is a no-op — on a concrete grind entry with an
empty combo, nothing (in particular no `"Grind"` token) is appended and the
trackers are not restarted. -/
theorem claim_C6_counterexample :
    addGrindToCombo tricksExample = tricksExample ∧
      ¬((addGrindToCombo tricksExample).comboTricks.getLast? = some "Grind") := by
  constructor
  · rfl
  · intro h
    simp [addGrindToCombo, addGrindToComboWith, SHOW_TRICK_NAME_FEEDBACK,
      tricksExample] at h

/-- C6 (amended): `addGrindToCombo()` is gated on `SHOW_TRICK_NAME_FEEDBACK`;
with the shipped value `false` it is a no-op. When the flag is `true` (and
the board is airborne with a mesh), the trick detected from the live tracker
counts (if non-null) is appended to the combo, then the literal `"Grind"`
token (both with duplicate-of-last suppression), the trick stats are
cleared, the flip and body-180 trackers are restarted with fresh baselines
from the current rotation state, and the shuv tracker is reset to inactive
(not restarted). -/
theorem claim_C6_amended_grind_combo (s : TricksState)
    (hmesh : s.boardMeshExists = true) (hair : s.isOnFloor = false) :
    (∀ s' : TricksState, addGrindToCombo s' = s') ∧
      ((addGrindToComboWith true s).comboTricks.getLast? = some "Grind" ∧
        (∀ nm : String,
          detectTrickNameFromStats s.tricksData (getCurrentTrickStats s) = some nm →
            nm ∈ (addGrindToComboWith true s).comboTricks) ∧
        (addGrindToComboWith true s).flipTracker
          = s.flipTracker.reset.start s.boardRotZ ∧
        (addGrindToComboWith true s).body180Tracker
          = s.body180Tracker.reset.start s.cameraAngle ∧
        (addGrindToComboWith true s).shuvTracker.isActive = false ∧
        (addGrindToComboWith true s).trickStats
          = { flips := 0, body180s := 0, shuvs := 0, wasFakie := false }) := by
  constructor
  · intro s'
    rfl
  · obtain hframe := addItemToCombo_frame "Grind"
    rcases hdet : detectTrickNameFromStats s.tricksData (getCurrentTrickStats s)
      with _ | nm
    all_goals
      have hun : addGrindToComboWith true s
          = restartTrackers (resetTrickStats (addItemToCombo "Grind"
              (match detectTrickNameFromStats s.tricksData (getCurrentTrickStats s) with
               | some nm => addItemToCombo nm s
               | none => s))) := rfl
      rw [hdet] at hun
      dsimp only at hun
    -- no trick detected
    ·
      have hmesh2 : (addItemToCombo "Grind" s).boardMeshExists = true := by
        rw [(hframe s).2.2.2.1, hmesh]
      have hair2 : (addItemToCombo "Grind" s).isOnFloor = false := by
        rw [(hframe s).2.2.2.2.1, hair]
      rw [hun, restartTrackers_eq _ (by simpa [resetTrickStats] using hmesh2)
        (by simpa [resetTrickStats] using hair2)]
      refine ⟨addItemToCombo_getLast "Grind" s, ?_, ?_, ?_, rfl, rfl⟩
      · intro nm hnm
        exact absurd hnm (by simp)
      · show ((addItemToCombo "Grind" s).flipTracker).reset.start
            (addItemToCombo "Grind" s).boardRotZ = s.flipTracker.reset.start s.boardRotZ
        rw [(hframe s).1, (hframe s).2.2.2.2.2.1]
      · show ((addItemToCombo "Grind" s).body180Tracker).reset.start
            (addItemToCombo "Grind" s).cameraAngle
            = s.body180Tracker.reset.start s.cameraAngle
        rw [(hframe s).2.1, (hframe s).2.2.2.2.2.2]
    -- trick nm detected and appended first
    ·
      obtain hframeNm := addItemToCombo_frame nm s
      have hmesh2 : (addItemToCombo "Grind" (addItemToCombo nm s)).boardMeshExists = true := by
        rw [(hframe _).2.2.2.1, hframeNm.2.2.2.1, hmesh]
      have hair2 : (addItemToCombo "Grind" (addItemToCombo nm s)).isOnFloor = false := by
        rw [(hframe _).2.2.2.2.1, hframeNm.2.2.2.2.1, hair]
      rw [hun, restartTrackers_eq _ (by simpa [resetTrickStats] using hmesh2)
        (by simpa [resetTrickStats] using hair2)]
      refine ⟨addItemToCombo_getLast "Grind" _, ?_, ?_, ?_, rfl, rfl⟩
      · intro nm' hnm'
        obtain rfl : nm = nm' := by simpa using hnm'
        exact addItemToCombo_mem_preserved nm "Grind" (addItemToCombo nm s)
          (addItemToCombo_mem nm s) (addItemToCombo_active nm s)
      · show ((addItemToCombo "Grind" (addItemToCombo nm s)).flipTracker).reset.start
            (addItemToCombo "Grind" (addItemToCombo nm s)).boardRotZ
            = s.flipTracker.reset.start s.boardRotZ
        rw [(hframe _).1, hframeNm.1, (hframe _).2.2.2.2.2.1, hframeNm.2.2.2.2.2.1]
      · show ((addItemToCombo "Grind" (addItemToCombo nm s)).body180Tracker).reset.start
            (addItemToCombo "Grind" (addItemToCombo nm s)).cameraAngle
            = s.body180Tracker.reset.start s.cameraAngle
        rw [(hframe _).2.1, hframeNm.2.1, (hframe _).2.2.2.2.2.2,
          hframeNm.2.2.2.2.2.2]

/-- Witness for C6 (amended) at the example grind-entry state. -/
theorem claim_C6_witness :
    (tricksExample.boardMeshExists = true ∧ tricksExample.isOnFloor = false) ∧
      ((∀ s' : TricksState, addGrindToCombo s' = s') ∧
        ((addGrindToComboWith true tricksExample).comboTricks.getLast?
            = some "Grind" ∧
          (∀ nm : String,
            detectTrickNameFromStats tricksExample.tricksData
                (getCurrentTrickStats tricksExample) = some nm →
              nm ∈ (addGrindToComboWith true tricksExample).comboTricks) ∧
          (addGrindToComboWith true tricksExample).flipTracker
            = tricksExample.flipTracker.reset.start tricksExample.boardRotZ ∧
          (addGrindToComboWith true tricksExample).body180Tracker
            = tricksExample.body180Tracker.reset.start tricksExample.cameraAngle ∧
          (addGrindToComboWith true tricksExample).shuvTracker.isActive = false ∧
          (addGrindToComboWith true tricksExample).trickStats
            = { flips := 0, body180s := 0, shuvs := 0, wasFakie := false })) :=
  ⟨⟨rfl, rfl⟩, claim_C6_amended_grind_combo tricksExample rfl rfl⟩

/-! ### C2: wrap-around correctness of the rotation tracker

Supporting characterizations of `normalizeAngle` (bounded fuel) and
`shortestAngleDiff` (exact mod-2π representative). -/

theorem two_pi_pos : (0 : ℚ) < TWO_PI := by norm_num [TWO_PI, PI]

theorem pi_pos : (0 : ℚ) < PI := by norm_num [PI]

theorem pi_gt_three : (3 : ℚ) < PI := by norm_num [PI]

theorem pi_lt_four : PI < (4 : ℚ) := by norm_num [PI]

theorem normalizeUpLoop_cong (f : ℕ) (a : ℚ) :
    ∃ m : ℕ, normalizeUpLoop f a = a + TWO_PI * m := by
  induction f generalizing a with
  | zero => exact ⟨0, by simp [normalizeUpLoop]⟩
  | succ f ih =>
    unfold normalizeUpLoop
    split_ifs with h
    · obtain ⟨m, hm⟩ := ih (a + TWO_PI)
      exact ⟨m + 1, by rw [hm]; push_cast; ring⟩
    · exact ⟨0, by simp⟩

theorem normalizeDownLoop_cong (f : ℕ) (a : ℚ) :
    ∃ m : ℕ, normalizeDownLoop f a = a - TWO_PI * m := by
  induction f generalizing a with
  | zero => exact ⟨0, by simp [normalizeDownLoop]⟩
  | succ f ih =>
    unfold normalizeDownLoop
    split_ifs with h
    · obtain ⟨m, hm⟩ := ih (a - TWO_PI)
      exact ⟨m + 1, by rw [hm]; push_cast; ring⟩
    · exact ⟨0, by simp⟩

theorem normalizeAngle_cong (a : ℚ) (f : ℕ) :
    ∃ k : ℤ, normalizeAngle a f = a + TWO_PI * k := by
  obtain ⟨m1, h1⟩ := normalizeUpLoop_cong f a
  obtain ⟨m2, h2⟩ := normalizeDownLoop_cong f (normalizeUpLoop f a)
  refine ⟨(m1 : ℤ) - m2, ?_⟩
  rw [normalizeAngle, h2, h1]
  push_cast
  ring

theorem normalizeDownLoop_nonneg (f : ℕ) (a : ℚ) (h : 0 ≤ a) :
    0 ≤ normalizeDownLoop f a := by
  induction f generalizing a with
  | zero => exact h
  | succ f ih =>
    unfold normalizeDownLoop
    split_ifs with hc
    · exact ih _ (by linarith [two_pi_pos])
    · exact h

theorem normalizeDownLoop_lt_bound (f : ℕ) (a : ℚ) (h0 : 0 ≤ a)
    (h : a < TWO_PI * (f + 1)) : normalizeDownLoop f a < TWO_PI := by
  induction f generalizing a with
  | zero => simpa [normalizeDownLoop] using h
  | succ f ih =>
    unfold normalizeDownLoop
    split_ifs with hc
    · refine ih _ (by linarith) (by push_cast at h ⊢; linarith)
    · exact lt_of_not_le hc

theorem normalizeDownLoop_ge (f : ℕ) (a : ℚ) :
    a - TWO_PI * f ≤ normalizeDownLoop f a := by
  induction f generalizing a with
  | zero => simp [normalizeDownLoop]
  | succ f ih =>
    unfold normalizeDownLoop
    split_ifs with hc
    · have := ih (a - TWO_PI)
      push_cast
      push_cast at this
      linarith
    · have : (0 : ℚ) ≤ TWO_PI * (f + 1) :=
        mul_nonneg two_pi_pos.le (by positivity)
      push_cast
      linarith

theorem normalizeUpLoop_mem (f : ℕ) (a : ℚ) (hlo : -(TWO_PI * f) ≤ a)
    (hhi : a < TWO_PI) : 0 ≤ normalizeUpLoop f a ∧ normalizeUpLoop f a < TWO_PI := by
  induction f generalizing a with
  | zero =>
    simp only [Nat.cast_zero, mul_zero, neg_zero] at hlo
    exact ⟨hlo, by simpa [normalizeUpLoop] using hhi⟩
  | succ f ih =>
    unfold normalizeUpLoop
    split_ifs with hc
    · refine ih _ (by push_cast at hlo ⊢; linarith) (by linarith [two_pi_pos])
    · exact ⟨not_lt.mp hc, hhi⟩

theorem normalizeUpLoop_le (f : ℕ) (a : ℚ) :
    normalizeUpLoop f a ≤ a + TWO_PI * f := by
  induction f generalizing a with
  | zero => simp [normalizeUpLoop]
  | succ f ih =>
    unfold normalizeUpLoop
    split_ifs with hc
    · have := ih (a + TWO_PI)
      push_cast
      push_cast at this
      linarith
    · have : (0 : ℚ) ≤ TWO_PI * (f + 1) :=
        mul_nonneg two_pi_pos.le (by positivity)
      push_cast
      linarith

/-- For nonnegative input below `22π`, `normalizeAngle` fully normalizes. -/
theorem normalizeAngle_forward_mem (a : ℚ) (h0 : 0 ≤ a)
    (hhi : a < TWO_PI * 11) :
    0 ≤ normalizeAngle a ANGLE_NORMALIZATION_MAX_ATTEMPTS ∧
      normalizeAngle a ANGLE_NORMALIZATION_MAX_ATTEMPTS < TWO_PI := by
  rw [normalizeAngle, ANGLE_NORMALIZATION_MAX_ATTEMPTS,
    normalizeUpLoop_of_nonneg 10 a h0]
  exact ⟨normalizeDownLoop_nonneg 10 a h0,
    normalizeDownLoop_lt_bound 10 a h0 (by push_cast; linarith)⟩

/-- For nonnegative input at or above `22π`, the fuel runs out and the result
stays at or above `2π`. -/
theorem normalizeAngle_forward_big (a : ℚ) (h0 : 0 ≤ a)
    (hhi : TWO_PI * 11 ≤ a) :
    TWO_PI ≤ normalizeAngle a ANGLE_NORMALIZATION_MAX_ATTEMPTS := by
  rw [normalizeAngle, ANGLE_NORMALIZATION_MAX_ATTEMPTS,
    normalizeUpLoop_of_nonneg 10 a h0]
  have := normalizeDownLoop_ge 10 a
  push_cast at this
  linarith

theorem normalizeAngle_forward_nonneg (a : ℚ) (h0 : 0 ≤ a) :
    0 ≤ normalizeAngle a ANGLE_NORMALIZATION_MAX_ATTEMPTS := by
  rw [normalizeAngle, ANGLE_NORMALIZATION_MAX_ATTEMPTS,
    normalizeUpLoop_of_nonneg 10 a h0]
  exact normalizeDownLoop_nonneg 10 a h0

/-- For input in `[-20π, 2π)`, `normalizeAngle` fully normalizes. -/
theorem normalizeAngle_back_mem (a : ℚ) (hlo : -(TWO_PI * 10) ≤ a)
    (hhi : a < TWO_PI) :
    0 ≤ normalizeAngle a ANGLE_NORMALIZATION_MAX_ATTEMPTS ∧
      normalizeAngle a ANGLE_NORMALIZATION_MAX_ATTEMPTS < TWO_PI := by
  obtain ⟨h1, h2⟩ := normalizeUpLoop_mem 10 a (by push_cast; linarith) hhi
  rw [normalizeAngle, ANGLE_NORMALIZATION_MAX_ATTEMPTS,
    normalizeDownLoop_of_lt 10 _ h2]
  exact ⟨h1, h2⟩

/-- For input below `-20π`, the fuel runs out and the result stays negative. -/
theorem normalizeAngle_back_low (a : ℚ) (hlo : a < -(TWO_PI * 10)) :
    normalizeAngle a ANGLE_NORMALIZATION_MAX_ATTEMPTS < 0 := by
  have hle := normalizeUpLoop_le 10 a
  push_cast at hle
  have hneg : normalizeUpLoop 10 a < 0 := by linarith
  rw [normalizeAngle, ANGLE_NORMALIZATION_MAX_ATTEMPTS,
    normalizeDownLoop_of_lt 10 _ (by linarith [two_pi_pos])]
  exact hneg

theorem reduceAbovePi_le (d : ℚ) : reduceAbovePi d ≤ PI := by
  induction d using reduceAbovePi.induct with
  | case1 d hlt ih =>
    rw [reduceAbovePi, dif_pos hlt]
    exact ih
  | case2 d hlt =>
    rw [reduceAbovePi, dif_neg hlt]
    exact not_lt.mp hlt

theorem raiseBelowNegPi_ge (d : ℚ) : -PI ≤ raiseBelowNegPi d := by
  induction d using raiseBelowNegPi.induct with
  | case1 d hlt ih =>
    rw [raiseBelowNegPi, dif_pos hlt]
    exact ih
  | case2 d hlt =>
    rw [raiseBelowNegPi, dif_neg hlt]
    exact not_lt.mp hlt

theorem raiseBelowNegPi_le (d : ℚ) (hd : d ≤ PI) : raiseBelowNegPi d ≤ PI := by
  have hTP : TWO_PI = 2 * PI := rfl
  induction d using raiseBelowNegPi.induct with
  | case1 d hlt ih =>
    rw [raiseBelowNegPi, dif_pos hlt]
    exact ih (by rw [hTP]; linarith [pi_pos])
  | case2 d hlt =>
    rw [raiseBelowNegPi, dif_neg hlt]
    exact hd

theorem reduceAbovePi_cong (d : ℚ) : ∃ m : ℕ, reduceAbovePi d = d - TWO_PI * m := by
  induction d using reduceAbovePi.induct with
  | case1 d hlt ih =>
    obtain ⟨m, hm⟩ := ih
    rw [reduceAbovePi, dif_pos hlt]
    exact ⟨m + 1, by rw [hm]; push_cast; ring⟩
  | case2 d hlt =>
    rw [reduceAbovePi, dif_neg hlt]
    exact ⟨0, by simp⟩

theorem raiseBelowNegPi_cong (d : ℚ) : ∃ m : ℕ, raiseBelowNegPi d = d + TWO_PI * m := by
  induction d using raiseBelowNegPi.induct with
  | case1 d hlt ih =>
    obtain ⟨m, hm⟩ := ih
    rw [raiseBelowNegPi, dif_pos hlt]
    exact ⟨m + 1, by rw [hm]; push_cast; ring⟩
  | case2 d hlt =>
    rw [raiseBelowNegPi, dif_neg hlt]
    exact ⟨0, by simp⟩

theorem shortestAngleDiff_bounds (c t : ℚ) :
    -PI ≤ shortestAngleDiff c t ∧ shortestAngleDiff c t ≤ PI := by
  unfold shortestAngleDiff
  dsimp only
  exact ⟨raiseBelowNegPi_ge _, raiseBelowNegPi_le _ (reduceAbovePi_le _)⟩

theorem shortestAngleDiff_cong (c t : ℚ) :
    ∃ k : ℤ, shortestAngleDiff c t = (t - c) + TWO_PI * k := by
  obtain ⟨kc, hc⟩ := normalizeAngle_cong c ANGLE_NORMALIZATION_MAX_ATTEMPTS
  obtain ⟨kt, ht⟩ := normalizeAngle_cong t ANGLE_NORMALIZATION_MAX_ATTEMPTS
  obtain ⟨m1, h1⟩ := reduceAbovePi_cong
    (normalizeAngle t ANGLE_NORMALIZATION_MAX_ATTEMPTS
      - normalizeAngle c ANGLE_NORMALIZATION_MAX_ATTEMPTS)
  obtain ⟨m2, h2⟩ := raiseBelowNegPi_cong
    (reduceAbovePi (normalizeAngle t ANGLE_NORMALIZATION_MAX_ATTEMPTS
      - normalizeAngle c ANGLE_NORMALIZATION_MAX_ATTEMPTS))
  refine ⟨kt - kc - m1 + m2, ?_⟩
  show raiseBelowNegPi (reduceAbovePi _) = _
  rw [h2, h1, ht, hc]
  push_cast
  ring

/-- Uniqueness: `shortestAngleDiff` returns the unique representative of
`t − c` modulo `2π` lying strictly inside `(−π, π)` whenever one exists. -/
theorem shortestAngleDiff_eq_rep (c t x : ℚ)
    (hk : ∃ k : ℤ, t - c = x + TWO_PI * k) (h1 : -PI < x) (h2 : x < PI) :
    shortestAngleDiff c t = x := by
  obtain ⟨k1, hcong⟩ := shortestAngleDiff_cong c t
  obtain ⟨k2, hx⟩ := hk
  obtain ⟨hb1, hb2⟩ := shortestAngleDiff_bounds c t
  have hr : shortestAngleDiff c t = x + TWO_PI * ((k2 + k1 : ℤ) : ℚ) := by
    rw [hcong, hx]
    push_cast
    ring
  have hTP : TWO_PI = 2 * PI := rfl
  have hk0 : (k2 + k1 : ℤ) = 0 := by
    by_contra hne
    rcases lt_or_gt_of_ne hne with hlt | hgt
    · have h' : (k2 + k1 : ℤ) ≤ -1 := by omega
      have h'' : ((k2 + k1 : ℤ) : ℚ) ≤ -1 := by exact_mod_cast h'
      have hmul := mul_le_mul_of_nonneg_left h'' two_pi_pos.le
      rw [hr] at hb1
      rw [hTP] at hb1 hmul
      linarith
    · have h' : (1 : ℤ) ≤ k2 + k1 := hgt
      have h'' : (1 : ℚ) ≤ ((k2 + k1 : ℤ) : ℚ) := by exact_mod_cast h'
      have hmul := mul_le_mul_of_nonneg_left h'' two_pi_pos.le
      rw [hr] at hb2
      rw [hTP] at hb2 hmul
      linarith
  rw [hk0] at hr
  simpa using hr

theorem mathAbs_of_nonneg (d : ℚ) (h : 0 ≤ d) : mathAbs d = d := by
  unfold mathAbs
  rw [if_neg (not_lt.mpr h)]

theorem mathAbs_of_nonpos (d : ℚ) (h : d ≤ 0) : mathAbs d = -d := by
  unfold mathAbs
  split_ifs with h'
  · rfl
  · have hz : d = 0 := le_antisymm h (not_lt.mp h')
    rw [hz]
    norm_num

theorem mathSign_pos (d : ℚ) (h : 0 < d) : mathSign d = 1 := by
  unfold mathSign
  rw [if_pos h]

theorem mathSign_neg (d : ℚ) (h : d < 0) : mathSign d = -1 := by
  unfold mathSign
  rw [if_neg (by linarith), if_pos h]

/-- Forward master lemma on the delta computation: when both stored angles lie
in `[0, 2π)` and the true forward gap `g` is in `[0, 3]`, `computeDelta`
returns exactly `g`, for every direction and previous-delta state.  When the
forward wrap-around replacement fires it is extensionally the same value, and
the backward replacement's positional guard cannot fire. -/
theorem computeDelta_forward (prev cur g pd : ℚ) (dir : ℤ)
    (hp0 : 0 ≤ prev) (hp1 : prev < TWO_PI) (hc0 : 0 ≤ cur) (hc1 : cur < TWO_PI)
    (hj : ∃ j : ℤ, cur - prev = g + TWO_PI * j) (hg0 : 0 ≤ g) (hg1 : g ≤ 3) :
    RotationTracker.computeDelta prev pd dir cur = g := by
  have hTP : TWO_PI = 2 * PI := rfl
  have hpi3 := pi_gt_three
  have hpi4 := pi_lt_four
  obtain ⟨j, hjj⟩ := hj
  have hb : TWO_PI * (j : ℚ) = cur - prev - g := by linarith
  have hjlt : (j : ℚ) < 1 := by
    have h1 : TWO_PI * (j : ℚ) < TWO_PI * 1 := by
      rw [hb]
      linarith
    exact lt_of_mul_lt_mul_left h1 two_pi_pos.le
  have hjgt : (-2 : ℚ) < (j : ℚ) := by
    have h1 : TWO_PI * (-2 : ℚ) < TWO_PI * (j : ℚ) := by
      rw [hb]
      linarith
    exact lt_of_mul_lt_mul_left h1 two_pi_pos.le
  have hjlt' : j < 1 := by exact_mod_cast hjlt
  have hjgt' : (-2 : ℤ) < j := by exact_mod_cast hjgt
  have hj01 : j = 0 ∨ j = -1 := by omega
  have hs : shortestAngleDiff prev cur = g :=
    shortestAngleDiff_eq_rep prev cur g ⟨j, hjj⟩ (by linarith) (by linarith)
  unfold RotationTracker.computeDelta
  dsimp only
  rw [hs]
  split_ifs with h1 h2 h3 h4
  · obtain ⟨ha, hb'⟩ := h1
    rcases hj01 with h | h <;> (rw [h] at hjj; push_cast at hjj; linarith)
  · rfl
  · obtain ⟨ha, hb'⟩ := h3
    rcases hj01 with h | h <;> (rw [h] at hjj; push_cast at hjj; linarith)
  · rfl
  · rfl

/-- Backward mirror of `computeDelta_forward`: for a true backward gap
`g ∈ [−3, 0]` the computed delta is exactly `g`. -/
theorem computeDelta_backward (prev cur g pd : ℚ) (dir : ℤ)
    (hp0 : 0 ≤ prev) (hp1 : prev < TWO_PI) (hc0 : 0 ≤ cur) (hc1 : cur < TWO_PI)
    (hj : ∃ j : ℤ, cur - prev = g + TWO_PI * j) (hg0 : -3 ≤ g) (hg1 : g ≤ 0) :
    RotationTracker.computeDelta prev pd dir cur = g := by
  have hTP : TWO_PI = 2 * PI := rfl
  have hpi3 := pi_gt_three
  have hpi4 := pi_lt_four
  obtain ⟨j, hjj⟩ := hj
  have hb : TWO_PI * (j : ℚ) = cur - prev - g := by linarith
  have hjlt : (j : ℚ) < 2 := by
    have h1 : TWO_PI * (j : ℚ) < TWO_PI * 2 := by
      rw [hb]
      linarith
    exact lt_of_mul_lt_mul_left h1 two_pi_pos.le
  have hjgt : (-1 : ℚ) < (j : ℚ) := by
    have h1 : TWO_PI * (-1 : ℚ) < TWO_PI * (j : ℚ) := by
      rw [hb]
      linarith
    exact lt_of_mul_lt_mul_left h1 two_pi_pos.le
  have hjlt' : j < 2 := by exact_mod_cast hjlt
  have hjgt' : (-1 : ℤ) < j := by exact_mod_cast hjgt
  have hj01 : j = 0 ∨ j = 1 := by omega
  have hs : shortestAngleDiff prev cur = g :=
    shortestAngleDiff_eq_rep prev cur g ⟨j, hjj⟩ (by linarith) (by linarith)
  unfold RotationTracker.computeDelta
  dsimp only
  rw [hs]
  split_ifs with h1 h2 h3 h4
  · obtain ⟨ha, hb'⟩ := h1
    rcases hj01 with h | h <;> (rw [h] at hjj; push_cast at hjj; linarith)
  · rfl
  · obtain ⟨ha, hb'⟩ := h3
    rcases hj01 with h | h <;> (rw [h] at hjj; push_cast at hjj; linarith)
  · rfl
  · rfl

/-- `_getCompletedCount` recovers exactly `N` from a cumulative rotation of
`N` whole thresholds, for any threshold at least `MIN_ROTATION_FOR_COUNT`. -/
theorem getCompletedCount_nat_mul (T : ℚ) (hT : MIN_ROTATION_FOR_COUNT ≤ T)
    (N : ℕ) : RotationTracker.getCompletedCount T ((N : ℚ) * T) = N := by
  rw [MIN_ROTATION_FOR_COUNT] at hT
  have hTpos : (0 : ℚ) < T := by linarith
  rcases Nat.eq_zero_or_pos N with rfl | hN
  · rw [show ((0 : ℕ) : ℚ) * T = 0 by norm_num, getCompletedCount_zero]
    norm_num
  · have hN1 : (1 : ℚ) ≤ (N : ℚ) := by exact_mod_cast hN
    have hNT : (0.05 : ℚ) ≤ (N : ℚ) * T := by
      have := mul_le_mul_of_nonneg_right hN1 hTpos.le
      linarith
    have habs : mathAbs ((N : ℚ) * T) = (N : ℚ) * T :=
      mathAbs_of_nonneg _ (mul_nonneg (Nat.cast_nonneg N) hTpos.le)
    unfold RotationTracker.getCompletedCount
    dsimp only
    rw [if_neg (by rw [habs]; push_neg; linarith), if_pos (by linarith)]
    have hdiv : ((N : ℚ) * T + 0.01) / T = (N : ℚ) + 0.01 / T := by
      rw [add_div, mul_div_cancel_right₀ _ hTpos.ne']
    have h01 : (0 : ℚ) ≤ 0.01 / T := div_nonneg (by norm_num) hTpos.le
    have h02 : (0.01 : ℚ) / T < 1 := by
      rw [div_lt_one hTpos]
      linarith
    rw [hdiv, Int.floor_eq_iff]
    constructor
    · push_cast
      linarith
    · push_cast
      linarith

/-- Negative mirror of `getCompletedCount_nat_mul`. -/
theorem getCompletedCount_neg_nat_mul (T : ℚ) (hT : MIN_ROTATION_FOR_COUNT ≤ T)
    (N : ℕ) : RotationTracker.getCompletedCount T (-((N : ℚ) * T)) = -N := by
  rw [MIN_ROTATION_FOR_COUNT] at hT
  have hTpos : (0 : ℚ) < T := by linarith
  rcases Nat.eq_zero_or_pos N with rfl | hN
  · rw [show -(((0 : ℕ) : ℚ) * T) = 0 by norm_num, getCompletedCount_zero]
    norm_num
  · have hN1 : (1 : ℚ) ≤ (N : ℚ) := by exact_mod_cast hN
    have hNT : (0.05 : ℚ) ≤ (N : ℚ) * T := by
      have := mul_le_mul_of_nonneg_right hN1 hTpos.le
      linarith
    have habs : mathAbs (-((N : ℚ) * T)) = (N : ℚ) * T := by
      rw [mathAbs_of_nonpos _ (by linarith), neg_neg]
    unfold RotationTracker.getCompletedCount
    dsimp only
    rw [if_neg (by rw [habs]; push_neg; linarith), if_neg (by push_neg; linarith)]
    have hdiv : (-((N : ℚ) * T) - 0.01) / T = -(N : ℚ) - 0.01 / T := by
      rw [sub_div, neg_div, mul_div_cancel_right₀ _ hTpos.ne']
    have h01 : (0 : ℚ) ≤ 0.01 / T := div_nonneg (by norm_num) hTpos.le
    have h02 : (0.01 : ℚ) / T < 1 := by
      rw [div_lt_one hTpos]
      linarith
    rw [hdiv, Int.ceil_eq_iff]
    constructor
    · push_cast
      linarith
    · push_cast
      linarith

/-- `update()` on an active tracker when the noise filter rejects the delta:
only `rotationVelocity` and `previousDelta` change. -/
theorem update_reject_proj (t : RotationTracker) (a d : ℚ)
    (h : t.isActive = true)
    (hd : RotationTracker.computeDelta t.previousRotation t.previousDelta
        t.direction (normalizeAngle a ANGLE_NORMALIZATION_MAX_ATTEMPTS) = d)
    (hfil : mathAbs d < MIN_ROTATION_FOR_COUNT ∧
      mathAbs t.cumulativeRotation < MIN_ROTATION_FOR_COUNT ∧ t.direction = 0) :
    (t.update a).1.isActive = true ∧
    (t.update a).1.threshold = t.threshold ∧
    (t.update a).1.direction = t.direction ∧
    (t.update a).1.cumulativeRotation = t.cumulativeRotation ∧
    (t.update a).1.completedRotations = t.completedRotations ∧
    (t.update a).1.previousRotation = t.previousRotation := by
  unfold RotationTracker.update
  dsimp only
  simp only [h, Bool.not_true, Bool.false_eq_true, if_false]
  rw [hd, if_pos hfil]
  exact ⟨rfl, rfl, rfl, rfl, rfl, rfl⟩

/-- `update()` on an active tracker when the noise filter does not reject, for
a tracker whose stored count agrees with a recompute: the delta is accumulated
once, the count is recomputed from the new cumulative rotation, and the stored
previous rotation becomes the normalized sample. -/
theorem update_accept_proj (t : RotationTracker) (a d : ℚ) (dd : ℤ)
    (h : t.isActive = true)
    (hd : RotationTracker.computeDelta t.previousRotation t.previousDelta
        t.direction (normalizeAngle a ANGLE_NORMALIZATION_MAX_ATTEMPTS) = d)
    (hdd : (if (0.001 : ℚ) < mathAbs d then mathSign d else t.direction) = dd)
    (hfil : ¬(mathAbs d < MIN_ROTATION_FOR_COUNT ∧
      mathAbs t.cumulativeRotation < MIN_ROTATION_FOR_COUNT ∧ t.direction = 0))
    (hcc : t.completedRotations =
      RotationTracker.getCompletedCount t.threshold t.cumulativeRotation) :
    (t.update a).1.isActive = true ∧
    (t.update a).1.threshold = t.threshold ∧
    (t.update a).1.direction = dd ∧
    (t.update a).1.cumulativeRotation = t.cumulativeRotation + d ∧
    (t.update a).1.completedRotations =
      RotationTracker.getCompletedCount t.threshold (t.cumulativeRotation + d) ∧
    (t.update a).1.previousRotation =
      normalizeAngle a ANGLE_NORMALIZATION_MAX_ATTEMPTS := by
  unfold RotationTracker.update
  dsimp only
  simp only [h, Bool.not_true, Bool.false_eq_true, if_false]
  rw [hd, hdd, if_neg hfil]
  split_ifs with h3
  · exact ⟨rfl, rfl, rfl, rfl, rfl, rfl⟩
  · rw [not_ne_iff] at h3
    exact ⟨rfl, rfl, rfl, rfl, hcc.trans h3.symm, rfl⟩

/-- The forward run invariant holds along any monotone forward sample path. -/
theorem runUpdates_forward_inv (ax : String) (T : ℚ) (φ ψ : ℕ → ℚ) (n : ℕ)
    (hwrap : ∀ k, k ≤ n →
      0 ≤ ψ k ∧ ψ k < TWO_PI ∧ ∃ j : ℤ, ψ k = φ k - TWO_PI * j)
    (hsteps : ∀ k, k < n → 0 ≤ φ (k + 1) - φ k ∧ φ (k + 1) - φ k ≤ 0.9) :
    ∀ k, k ≤ n → forwardInv T ψ φ k
      (runUpdates ψ ((RotationTracker.mk' ax T).start (ψ 0)) k) := by
  intro k
  induction k with
  | zero =>
    intro _
    obtain ⟨h00, h01, _⟩ := hwrap 0 (Nat.zero_le n)
    unfold forwardInv
    rw [show runUpdates ψ ((RotationTracker.mk' ax T).start (ψ 0)) 0 =
        (RotationTracker.mk' ax T).start (ψ 0) from rfl]
    refine ⟨rfl, rfl, Or.inl ⟨rfl, rfl, rfl, ?_, by norm_num,
      by rw [MIN_ROTATION_FOR_COUNT]; norm_num⟩⟩
    show normalizeAngle (ψ 0) ANGLE_NORMALIZATION_MAX_ATTEMPTS = ψ 0
    exact normalizeAngle_of_mem _ _ h00 h01
  | succ k ih =>
    intro hk1
    have hk : k ≤ n := Nat.le_of_succ_le hk1
    have hkn : k < n := hk1
    have hinv := ih hk
    unfold forwardInv at hinv ⊢
    rw [show runUpdates ψ ((RotationTracker.mk' ax T).start (ψ 0)) (k + 1) =
        ((runUpdates ψ ((RotationTracker.mk' ax T).start (ψ 0)) k).update
          (ψ (k + 1))).1 from rfl]
    set t := runUpdates ψ ((RotationTracker.mk' ax T).start (ψ 0)) k with ht
    obtain ⟨hact, hthr, hcase⟩ := hinv
    obtain ⟨hs0, hs1⟩ := hsteps k hkn
    obtain ⟨h00, h01, j0, hj0⟩ := hwrap 0 (Nat.zero_le n)
    obtain ⟨hpk0, hpk1, jk, hjk⟩ := hwrap k hk
    obtain ⟨hq0, hq1, jq, hjq⟩ := hwrap (k + 1) hk1
    have hna : normalizeAngle (ψ (k + 1)) ANGLE_NORMALIZATION_MAX_ATTEMPTS
        = ψ (k + 1) := normalizeAngle_of_mem _ _ hq0 hq1
    rcases hcase with ⟨hdir, hcum, hcomp, hprev, hG0, hG1⟩ |
      ⟨hdir, hcum, hcomp, hprev⟩
    · have hg0 : 0 ≤ φ (k + 1) - φ 0 := by linarith
      have hg3 : φ (k + 1) - φ 0 ≤ 3 := by
        rw [MIN_ROTATION_FOR_COUNT] at hG1
        linarith
      have hd' : RotationTracker.computeDelta t.previousRotation t.previousDelta
          t.direction (normalizeAngle (ψ (k + 1)) ANGLE_NORMALIZATION_MAX_ATTEMPTS)
          = φ (k + 1) - φ 0 := by
        rw [hna, hprev]
        exact computeDelta_forward (ψ 0) (ψ (k + 1)) (φ (k + 1) - φ 0)
          t.previousDelta t.direction h00 h01 hq0 hq1
          ⟨j0 - jq, by rw [hjq, hj0]; push_cast; ring⟩ hg0 hg3
      by_cases hacc : φ (k + 1) - φ 0 < MIN_ROTATION_FOR_COUNT
      · obtain ⟨p1, p2, p3, p4, p5, p6⟩ := update_reject_proj t (ψ (k + 1))
          (φ (k + 1) - φ 0) hact hd'
          ⟨by rwa [mathAbs_of_nonneg _ hg0],
           by rw [hcum, mathAbs_zero, MIN_ROTATION_FOR_COUNT]; norm_num, hdir⟩
        exact ⟨p1, by rw [p2, hthr],
          Or.inl ⟨by rw [p3, hdir], by rw [p4, hcum], by rw [p5, hcomp],
            by rw [p6, hprev], hg0, hacc⟩⟩
      · have hge : MIN_ROTATION_FOR_COUNT ≤ φ (k + 1) - φ 0 := not_lt.mp hacc
        rw [MIN_ROTATION_FOR_COUNT] at hge
        have hdd : (if (0.001 : ℚ) < mathAbs (φ (k + 1) - φ 0) then
            mathSign (φ (k + 1) - φ 0) else t.direction) = 1 := by
          rw [mathAbs_of_nonneg _ hg0, if_pos (by linarith)]
          exact mathSign_pos _ (by linarith)
        have hfil : ¬(mathAbs (φ (k + 1) - φ 0) < MIN_ROTATION_FOR_COUNT ∧
            mathAbs t.cumulativeRotation < MIN_ROTATION_FOR_COUNT ∧
            t.direction = 0) := by
          rw [mathAbs_of_nonneg _ hg0]
          intro hcon
          rw [MIN_ROTATION_FOR_COUNT] at hcon
          exact absurd hcon.1 (by linarith)
        have hcc : t.completedRotations =
            RotationTracker.getCompletedCount t.threshold t.cumulativeRotation := by
          rw [hcomp, hcum, hthr, getCompletedCount_zero]
        obtain ⟨p1, p2, p3, p4, p5, p6⟩ := update_accept_proj t (ψ (k + 1))
          (φ (k + 1) - φ 0) 1 hact hd' hdd hfil hcc
        refine ⟨p1, by rw [p2, hthr], Or.inr ⟨p3, ?_, ?_, by rw [p6, hna]⟩⟩
        · rw [p4, hcum]
          ring
        · rw [p5, hthr, hcum, zero_add]
    · have hg0 : 0 ≤ φ (k + 1) - φ k := hs0
      have hg3 : φ (k + 1) - φ k ≤ 3 := by linarith
      have hd' : RotationTracker.computeDelta t.previousRotation t.previousDelta
          t.direction (normalizeAngle (ψ (k + 1)) ANGLE_NORMALIZATION_MAX_ATTEMPTS)
          = φ (k + 1) - φ k := by
        rw [hna, hprev]
        exact computeDelta_forward (ψ k) (ψ (k + 1)) (φ (k + 1) - φ k)
          t.previousDelta t.direction hpk0 hpk1 hq0 hq1
          ⟨jk - jq, by rw [hjq, hjk]; push_cast; ring⟩ hg0 hg3
      have hdd : (if (0.001 : ℚ) < mathAbs (φ (k + 1) - φ k) then
          mathSign (φ (k + 1) - φ k) else t.direction) = 1 := by
        rw [mathAbs_of_nonneg _ hg0]
        split_ifs with h'
        · exact mathSign_pos _ (by linarith)
        · exact hdir
      have hfil : ¬(mathAbs (φ (k + 1) - φ k) < MIN_ROTATION_FOR_COUNT ∧
          mathAbs t.cumulativeRotation < MIN_ROTATION_FOR_COUNT ∧
          t.direction = 0) := by
        intro hcon
        rw [hdir] at hcon
        exact one_ne_zero hcon.2.2
      have hcc : t.completedRotations =
          RotationTracker.getCompletedCount t.threshold t.cumulativeRotation := by
        rw [hcomp, hcum, hthr]
      obtain ⟨p1, p2, p3, p4, p5, p6⟩ := update_accept_proj t (ψ (k + 1))
        (φ (k + 1) - φ k) 1 hact hd' hdd hfil hcc
      refine ⟨p1, by rw [p2, hthr], Or.inr ⟨p3, ?_, ?_, by rw [p6, hna]⟩⟩
      · rw [p4, hcum]
        ring
      · rw [p5, hthr, hcum]
        congr 1
        ring

/-- The backward run invariant holds along any monotone backward sample path. -/
theorem runUpdates_backward_inv (ax : String) (T : ℚ) (φ ψ : ℕ → ℚ) (n : ℕ)
    (hwrap : ∀ k, k ≤ n →
      0 ≤ ψ k ∧ ψ k < TWO_PI ∧ ∃ j : ℤ, ψ k = φ k - TWO_PI * j)
    (hsteps : ∀ k, k < n → 0 ≤ φ k - φ (k + 1) ∧ φ k - φ (k + 1) ≤ 0.9) :
    ∀ k, k ≤ n → backwardInv T ψ φ k
      (runUpdates ψ ((RotationTracker.mk' ax T).start (ψ 0)) k) := by
  intro k
  induction k with
  | zero =>
    intro _
    obtain ⟨h00, h01, _⟩ := hwrap 0 (Nat.zero_le n)
    unfold backwardInv
    rw [show runUpdates ψ ((RotationTracker.mk' ax T).start (ψ 0)) 0 =
        (RotationTracker.mk' ax T).start (ψ 0) from rfl]
    refine ⟨rfl, rfl, Or.inl ⟨rfl, rfl, rfl, ?_, by norm_num,
      by rw [MIN_ROTATION_FOR_COUNT]; norm_num⟩⟩
    show normalizeAngle (ψ 0) ANGLE_NORMALIZATION_MAX_ATTEMPTS = ψ 0
    exact normalizeAngle_of_mem _ _ h00 h01
  | succ k ih =>
    intro hk1
    have hk : k ≤ n := Nat.le_of_succ_le hk1
    have hkn : k < n := hk1
    have hinv := ih hk
    unfold backwardInv at hinv ⊢
    rw [show runUpdates ψ ((RotationTracker.mk' ax T).start (ψ 0)) (k + 1) =
        ((runUpdates ψ ((RotationTracker.mk' ax T).start (ψ 0)) k).update
          (ψ (k + 1))).1 from rfl]
    set t := runUpdates ψ ((RotationTracker.mk' ax T).start (ψ 0)) k with ht
    obtain ⟨hact, hthr, hcase⟩ := hinv
    obtain ⟨hs0, hs1⟩ := hsteps k hkn
    obtain ⟨h00, h01, j0, hj0⟩ := hwrap 0 (Nat.zero_le n)
    obtain ⟨hpk0, hpk1, jk, hjk⟩ := hwrap k hk
    obtain ⟨hq0, hq1, jq, hjq⟩ := hwrap (k + 1) hk1
    have hna : normalizeAngle (ψ (k + 1)) ANGLE_NORMALIZATION_MAX_ATTEMPTS
        = ψ (k + 1) := normalizeAngle_of_mem _ _ hq0 hq1
    rcases hcase with ⟨hdir, hcum, hcomp, hprev, hG0, hG1⟩ |
      ⟨hdir, hcum, hcomp, hprev⟩
    · have hg1 : φ (k + 1) - φ 0 ≤ 0 := by linarith
      have hg3 : -3 ≤ φ (k + 1) - φ 0 := by
        rw [MIN_ROTATION_FOR_COUNT] at hG1
        linarith
      have hd' : RotationTracker.computeDelta t.previousRotation t.previousDelta
          t.direction (normalizeAngle (ψ (k + 1)) ANGLE_NORMALIZATION_MAX_ATTEMPTS)
          = φ (k + 1) - φ 0 := by
        rw [hna, hprev]
        exact computeDelta_backward (ψ 0) (ψ (k + 1)) (φ (k + 1) - φ 0)
          t.previousDelta t.direction h00 h01 hq0 hq1
          ⟨j0 - jq, by rw [hjq, hj0]; push_cast; ring⟩ hg3 hg1
      by_cases hacc : φ 0 - φ (k + 1) < MIN_ROTATION_FOR_COUNT
      · obtain ⟨p1, p2, p3, p4, p5, p6⟩ := update_reject_proj t (ψ (k + 1))
          (φ (k + 1) - φ 0) hact hd'
          ⟨by rw [mathAbs_of_nonpos _ hg1]; linarith,
           by rw [hcum, mathAbs_zero, MIN_ROTATION_FOR_COUNT]; norm_num, hdir⟩
        exact ⟨p1, by rw [p2, hthr],
          Or.inl ⟨by rw [p3, hdir], by rw [p4, hcum], by rw [p5, hcomp],
            by rw [p6, hprev], by linarith, hacc⟩⟩
      · have hge : MIN_ROTATION_FOR_COUNT ≤ φ 0 - φ (k + 1) := not_lt.mp hacc
        rw [MIN_ROTATION_FOR_COUNT] at hge
        have hdd : (if (0.001 : ℚ) < mathAbs (φ (k + 1) - φ 0) then
            mathSign (φ (k + 1) - φ 0) else t.direction) = -1 := by
          rw [mathAbs_of_nonpos _ hg1, if_pos (by linarith)]
          exact mathSign_neg _ (by linarith)
        have hfil : ¬(mathAbs (φ (k + 1) - φ 0) < MIN_ROTATION_FOR_COUNT ∧
            mathAbs t.cumulativeRotation < MIN_ROTATION_FOR_COUNT ∧
            t.direction = 0) := by
          rw [mathAbs_of_nonpos _ hg1]
          intro hcon
          rw [MIN_ROTATION_FOR_COUNT] at hcon
          exact absurd hcon.1 (by linarith)
        have hcc : t.completedRotations =
            RotationTracker.getCompletedCount t.threshold t.cumulativeRotation := by
          rw [hcomp, hcum, hthr, getCompletedCount_zero]
        obtain ⟨p1, p2, p3, p4, p5, p6⟩ := update_accept_proj t (ψ (k + 1))
          (φ (k + 1) - φ 0) (-1) hact hd' hdd hfil hcc
        refine ⟨p1, by rw [p2, hthr], Or.inr ⟨p3, ?_, ?_, by rw [p6, hna]⟩⟩
        · rw [p4, hcum]
          ring
        · rw [p5, hthr, hcum, zero_add]
    · have hg1 : φ (k + 1) - φ k ≤ 0 := by linarith
      have hg3 : (-3 : ℚ) ≤ φ (k + 1) - φ k := by linarith
      have hd' : RotationTracker.computeDelta t.previousRotation t.previousDelta
          t.direction (normalizeAngle (ψ (k + 1)) ANGLE_NORMALIZATION_MAX_ATTEMPTS)
          = φ (k + 1) - φ k := by
        rw [hna, hprev]
        exact computeDelta_backward (ψ k) (ψ (k + 1)) (φ (k + 1) - φ k)
          t.previousDelta t.direction hpk0 hpk1 hq0 hq1
          ⟨jk - jq, by rw [hjq, hjk]; push_cast; ring⟩ hg3 hg1
      have hdd : (if (0.001 : ℚ) < mathAbs (φ (k + 1) - φ k) then
          mathSign (φ (k + 1) - φ k) else t.direction) = -1 := by
        rw [mathAbs_of_nonpos _ hg1]
        split_ifs with h'
        · exact mathSign_neg _ (by linarith)
        · exact hdir
      have hfil : ¬(mathAbs (φ (k + 1) - φ k) < MIN_ROTATION_FOR_COUNT ∧
          mathAbs t.cumulativeRotation < MIN_ROTATION_FOR_COUNT ∧
          t.direction = 0) := by
        intro hcon
        rw [hdir] at hcon
        exact absurd hcon.2.2 (by norm_num)
      have hcc : t.completedRotations =
          RotationTracker.getCompletedCount t.threshold t.cumulativeRotation := by
        rw [hcomp, hcum, hthr]
      obtain ⟨p1, p2, p3, p4, p5, p6⟩ := update_accept_proj t (ψ (k + 1))
        (φ (k + 1) - φ k) (-1) hact hd' hdd hfil hcc
      refine ⟨p1, by rw [p2, hthr], Or.inr ⟨p3, ?_, ?_, by rw [p6, hna]⟩⟩
      · rw [p4, hcum]
        ring
      · rw [p5, hthr, hcum]
        congr 1
        ring

/-- **C2**: wrap-around correctness of the rotation tracker. For a tracker with
threshold `T` at least `MIN_ROTATION_FOR_COUNT`, started at any phase `ψ 0`
and fed the normalized samples `ψ k` of an unwrapped angle path `φ` (per-call
increments at most `0.9` rad, small relative to the `0.6π` wrap-detection
window, the normalized samples crossing the `0/2π` seam any number of times),
driving the path monotonically through `N` complete threshold rotations
forward ends with `getCount() = N`, and through `N` complete rotations
backward ends with `getCount() = −N`: the count is signed by the rotation
direction. -/
theorem claim_C2_wrap_around_count (ax : String) (T : ℚ)
    (hT : MIN_ROTATION_FOR_COUNT ≤ T) (φ ψ : ℕ → ℚ) (n : ℕ) (N : ℕ)
    (hwrap : ∀ k, k ≤ n →
      0 ≤ ψ k ∧ ψ k < TWO_PI ∧ ∃ j : ℤ, ψ k = φ k - TWO_PI * j) :
    ((∀ k, k < n → 0 ≤ φ (k + 1) - φ k ∧ φ (k + 1) - φ k ≤ 0.9) →
      φ n - φ 0 = (N : ℚ) * T →
      RotationTracker.getCount
        (runUpdates ψ ((RotationTracker.mk' ax T).start (ψ 0)) n) = N) ∧
    ((∀ k, k < n → 0 ≤ φ k - φ (k + 1) ∧ φ k - φ (k + 1) ≤ 0.9) →
      φ 0 - φ n = (N : ℚ) * T →
      RotationTracker.getCount
        (runUpdates ψ ((RotationTracker.mk' ax T).start (ψ 0)) n) = -N) := by
  constructor
  · intro hsteps htot
    have hinv := runUpdates_forward_inv ax T φ ψ n hwrap hsteps n le_rfl
    unfold forwardInv at hinv
    obtain ⟨_, _, hcase⟩ := hinv
    show (runUpdates ψ ((RotationTracker.mk' ax T).start (ψ 0)) n).completedRotations
      = (N : ℤ)
    rcases hcase with ⟨_, _, hcomp, _, _, hG1⟩ | ⟨_, _, hcomp, _⟩
    · have hTpos : (0 : ℚ) < T := by
        have hT' := hT
        rw [MIN_ROTATION_FOR_COUNT] at hT'
        linarith
      have hN : N = 0 := by
        by_contra hne
        have h1 : (1 : ℚ) ≤ (N : ℚ) := by
          exact_mod_cast Nat.one_le_iff_ne_zero.mpr hne
        rw [htot] at hG1
        rw [MIN_ROTATION_FOR_COUNT] at hG1
        have h2 := mul_le_mul_of_nonneg_right h1 hTpos.le
        have hT' := hT
        rw [MIN_ROTATION_FOR_COUNT] at hT'
        linarith
      subst hN
      rw [hcomp]
      norm_num
    · rw [hcomp, htot, getCompletedCount_nat_mul T hT N]
  · intro hsteps htot
    have hinv := runUpdates_backward_inv ax T φ ψ n hwrap hsteps n le_rfl
    unfold backwardInv at hinv
    obtain ⟨_, _, hcase⟩ := hinv
    show (runUpdates ψ ((RotationTracker.mk' ax T).start (ψ 0)) n).completedRotations
      = -(N : ℤ)
    rcases hcase with ⟨_, _, hcomp, _, _, hG1⟩ | ⟨_, _, hcomp, _⟩
    · have hTpos : (0 : ℚ) < T := by
        have hT' := hT
        rw [MIN_ROTATION_FOR_COUNT] at hT'
        linarith
      have hN : N = 0 := by
        by_contra hne
        have h1 : (1 : ℚ) ≤ (N : ℚ) := by
          exact_mod_cast Nat.one_le_iff_ne_zero.mpr hne
        rw [htot] at hG1
        rw [MIN_ROTATION_FOR_COUNT] at hG1
        have h2 := mul_le_mul_of_nonneg_right h1 hTpos.le
        have hT' := hT
        rw [MIN_ROTATION_FOR_COUNT] at hT'
        linarith
      subst hN
      rw [hcomp]
      norm_num
    · have hneg : φ n - φ 0 = -((N : ℚ) * T) := by linarith
      rw [hcomp, hneg, getCompletedCount_neg_nat_mul T hT N]

theorem claim_C2_witness :
    RotationTracker.getCount
      (runUpdates c2Psi ((RotationTracker.mk' axisYaw 1).start (c2Psi 0)) 2) = 1 := by
  have hwrap : ∀ k, k ≤ 2 → 0 ≤ c2Psi k ∧ c2Psi k < TWO_PI ∧
      ∃ j : ℤ, c2Psi k = c2Phi k - TWO_PI * j := by
    intro k hk
    interval_cases k
    · exact ⟨by norm_num [c2Psi, c2Phi], by norm_num [c2Psi, c2Phi, TWO_PI, PI],
        0, by norm_num [c2Psi, c2Phi]⟩
    · exact ⟨by norm_num [c2Psi, c2Phi, TWO_PI, PI],
        by norm_num [c2Psi, c2Phi, TWO_PI, PI], 1, by norm_num [c2Psi, c2Phi]⟩
    · exact ⟨by norm_num [c2Psi, c2Phi, TWO_PI, PI],
        by norm_num [c2Psi, c2Phi, TWO_PI, PI], 1, by norm_num [c2Psi, c2Phi]⟩
  have hsteps : ∀ k, k < 2 →
      0 ≤ c2Phi (k + 1) - c2Phi k ∧ c2Phi (k + 1) - c2Phi k ≤ 0.9 := by
    intro k hk
    interval_cases k <;> constructor <;> norm_num [c2Phi]
  have htot : c2Phi 2 - c2Phi 0 = ((1 : ℕ) : ℚ) * 1 := by norm_num [c2Phi]
  have h := (claim_C2_wrap_around_count "yaw" 1
      (by rw [MIN_ROTATION_FOR_COUNT]; norm_num) c2Phi c2Psi 2 1 hwrap).1
      hsteps htot
  exact_mod_cast h

end Shred
